import Mathlib

/-!
Verification development for the httpsp incremental HTTP/1.x message parser.

The Go sources are embedded shallowly: pure functions become Lean functions,
pointer-mutating parsers become functions that return the updated structures,
machine integers become `Nat` with explicit reduction modulo 2^16 where the
source stores offsets in the 16-bit `OffsT` type, and the one place where the
source can index a slice out of bounds (a Go runtime panic) is modelled by an
`Option` result (`none` = panic).  Buffers (`[]byte`) are modelled as a length
plus an index function; all loops recurse on explicit fuel that strictly
exceeds the number of iterations any run can make (every iteration either
returns or advances the scan position inside the buffer).

Primitives that the repository uses but whose definitions are not part of the
sources (the `bytescase` package, the `skip*`/`hexToU` lexing helpers, the
`ErrorHdr` type and `ParseCLenVal`) are modelled from the specification; each
such definition carries a doc comment starting with "Modelled from the spec:".
-/

namespace Httpsp

/-- Modelled from the spec: §3 "Error kind" (the source type `ErrorHdr` and its
constants are not under src/): `Ok`, `MoreBytes`, `MoreValues` (token-list
iterator signal), `Empty` (zero-length token/line), `EOH` (end-of-header line),
`BadChar`, `ValNotNumber`, `NumTooBig`, `NoCLen`, `Trunc`, `Bug`. -/
inductive ErrorHdr where
  | Ok
  | MoreBytes
  | MoreValues
  | Empty
  | EOH
  | BadChar
  | ValNotNumber
  | NumTooBig
  | NoCLen
  | Trunc
  | Bug
  deriving DecidableEq, Repr

/-- A byte buffer: a Go `[]byte` slice modelled as a length plus an index
function (bytes are `Nat` values, ASCII for all inputs considered here). -/
structure Buf where
  len : Nat
  byte : Nat → Nat

/-- Build a buffer from an explicit list of bytes (out-of-range reads give 0;
the embedding never reads out of range except where it models a Go panic). -/
def Buf.ofList (l : List Nat) : Buf :=
  { len := l.length, byte := fun i => l.getD i 0 }

/-- ASCII bytes of a Lean string literal. -/
def strBytes (s : String) : List Nat := s.data.map Char.toNat

/-- Go `buf[:end]` slicing (same backing array, shorter length). -/
def Buf.take (buf : Buf) (e : Nat) : Buf := { len := e, byte := buf.byte }

/-- Modelled from the spec: §6 consumed primitive, the case-insensitive ASCII
byte comparator family (package `bytescase`, not under src/): lower-casing of a
single ASCII byte (`bytescase.ByteToLower`). -/
def byteToLower (c : Nat) : Nat := if 65 ≤ c ∧ c ≤ 90 then c + 32 else c

/-- Modelled from the spec: §6 — `bytescase.CmpEq`, case-insensitive equality
of two byte strings (equal length and equal lower-cased bytes). -/
def cmpEq (a b : List Nat) : Bool := a.map byteToLower == b.map byteToLower

/-! ## PField (src/unnamed/part_005) -/

/-- PField is the type for parsed fields: an offset and a length inside a
buffer.  The source stores both in `OffsT = uint16`, so `Set`/`Extend` reduce
their arguments modulo 2^16. -/
structure PField where
  Offs : Nat
  Len : Nat
  deriving DecidableEq, Repr

/-- Set sets a PField to point to [start:e).  Source: `p.Offs = OffsT(start);
p.Len = OffsT(end - start)` (uint16 conversions; the `end < start` case panics
in Go and is never reached by the parsers, which always pass `e ≥ start`). -/
def PField.Set (start e : Nat) : PField :=
  { Offs := start % 65536, Len := (e - start) % 65536 }

/-- Reset sets a PField to the empty value. -/
def PField.Reset : PField := { Offs := 0, Len := 0 }

/-- Extend grows a PField to a new end offset.  Source: `p.Len =
OffsT(newEnd) - p.Offs`, a wrapping uint16 subtraction (the `newEnd <
int(p.Offs)` case panics in Go and is never reached here). -/
def PField.Extend (p : PField) (newEnd : Nat) : PField :=
  { p with Len := (newEnd % 65536 + 65536 - p.Offs % 65536) % 65536 }

/-- Empty returns true if the PField has 0 length. -/
def PField.Empty (p : PField) : Bool := p.Len == 0

/-- EndOffs returns the end offset of the PField. -/
def PField.EndOffs (p : PField) : Nat := p.Offs + p.Len

/-- OffsIn returns true if the offset is inside the PField. -/
def PField.OffsIn (p : PField) (offs : Nat) : Bool :=
  decide (p.Offs ≤ offs) && decide (offs < p.EndOffs)

/-- Get returns the bytes of `buf` covered by the field (Go
`buf[p.Offs : p.Offs+p.Len]`; all uses are in bounds). -/
def PField.Get (p : PField) (buf : Buf) : List Nat :=
  (List.range p.Len).map (fun k => buf.byte (p.Offs + k))

/-! ## Lexing primitives (used by the sources, not defined under src/) -/

/-- SP or HTAB. -/
def isWSb (c : Nat) : Bool := c == 32 || c == 9

/-- A byte that ends a token: SP, HTAB, CR or LF (see `skipToken`). -/
def isTokEnd (c : Nat) : Bool := c == 32 || c == 9 || c == 13 || c == 10

/-- Modelled from the spec: §4.1 `skip_ws` (not under src/): advance past SP
and HTAB only; returns the first non-WS offset or `len(buf)`. -/
def skipWS (buf : Buf) (i : Nat) : Nat := go (buf.len - i) i
where
  go : Nat → Nat → Nat
    | 0, j => j
    | fuel+1, j =>
      if j < buf.len && isWSb (buf.byte j) then go fuel (j+1) else j

/-- Modelled from the spec: §4.1 `skip_token` (not under src/): advance while
the byte is a token char, returning the first non-token offset or `len(buf)`.
The stop set here is SP, HTAB, CR, LF: the first-line grammar (§4.6) and the
§8 scenarios require bytes such as a slash, dot or colon inside method, URI and
version tokens, and every in-src caller tests only for SP/HTAB/CR/LF at the
returned offset, so the delimiter list quoted in §4.1 cannot be the stop set
actually used. -/
def skipToken (buf : Buf) (i : Nat) : Nat := go (buf.len - i) i
where
  go : Nat → Nat → Nat
    | 0, j => j
    | fuel+1, j =>
      if j < buf.len && !isTokEnd (buf.byte j) then go fuel (j+1) else j

/-- Modelled from the spec: variant of `skip_token` (not under src/) that also
stops at the extra delimiter `delim` (used for the `:` after a header name). -/
def skipTokenDelim (buf : Buf) (i : Nat) (delim : Nat) : Nat :=
  go (buf.len - i) i
where
  go : Nat → Nat → Nat
    | 0, j => j
    | fuel+1, j =>
      if j < buf.len && !isTokEnd (buf.byte j) && !(buf.byte j == delim) then
        go fuel (j+1)
      else j

/-- Modelled from the spec: §4.1 `skip_crlf` (not under src/): matches CRLF,
bare CR or bare LF at `i`; returns (new offset, consumed length, error).  A CR
as the last buffer byte cannot be told apart from a CRLF start, so it yields
`MoreBytes`; a non-CR/LF byte yields `BadChar`. -/
def skipCRLF (buf : Buf) (i : Nat) : Nat × Nat × ErrorHdr :=
  if i < buf.len then
    if buf.byte i == 13 then
      if i + 1 < buf.len then
        if buf.byte (i+1) == 10 then (i+2, 2, .Ok) else (i+1, 1, .Ok)
      else (i, 0, .MoreBytes)
    else if buf.byte i == 10 then (i+1, 1, .Ok)
    else (i, 0, .BadChar)
  else (i, 0, .MoreBytes)

/-- Modelled from the spec: the `skipLine` helper (not under src/) used for the
reason phrase: scan to the line end and consume it (CRLF, bare CR or bare LF);
returns (offset after the line end, line-end length, error), `MoreBytes` when
no line end is found in the buffer. -/
def skipLine (buf : Buf) (i : Nat) : Nat × Nat × ErrorHdr := go (buf.len + 1 - i) i
where
  go : Nat → Nat → Nat × Nat × ErrorHdr
    | 0, j => (j, 0, .MoreBytes)
    | fuel+1, j =>
      if j < buf.len then
        if buf.byte j == 13 then
          if j + 1 < buf.len then
            if buf.byte (j+1) == 10 then (j+2, 2, .Ok) else (j+1, 1, .Ok)
          else (j, 0, .MoreBytes)
        else if buf.byte j == 10 then (j+1, 1, .Ok)
        else go fuel (j+1)
      else (j, 0, .MoreBytes)

/-- Modelled from the spec: §4.1 `skip_lws` (not under src/): advance past SP
and HTAB including a line end (CRLF, bare CR or bare LF, cf. §4.1 "line
endings in the wild") that is followed by SP or HTAB (obs-fold, also exercised
by the repository's `randLWS` test helper with "\r " and "\n ").  Returns
`(next_non_ws_offset, crlf_length, status)`: `Ok` when a non-whitespace byte is
reached (offset points at it, length 0), `EOH` when a line end not followed by
WS is found (offset points at its first byte, length 1 or 2 so that offset +
length is the first byte of the next line), `MoreBytes` when the buffer ends
before the decision (offset points at the pending byte).  The `flags` argument
is accepted for signature compatibility and unused. -/
def skipLWS (buf : Buf) (i : Nat) (_flags : Nat) : Nat × Nat × ErrorHdr :=
  go (buf.len + 1 - i) i
where
  go : Nat → Nat → Nat × Nat × ErrorHdr
    | 0, j => (j, 0, .MoreBytes)
    | fuel+1, j =>
      if j < buf.len then
        if isWSb (buf.byte j) then go fuel (j+1)
        else if buf.byte j == 13 then
          if j + 1 < buf.len then
            if buf.byte (j+1) == 10 then
              if j + 2 < buf.len then
                if isWSb (buf.byte (j+2)) then go fuel (j+3) else (j, 2, .EOH)
              else (j, 0, .MoreBytes)
            else if isWSb (buf.byte (j+1)) then go fuel (j+2)
            else (j, 1, .EOH)
          else (j, 0, .MoreBytes)
        else if buf.byte j == 10 then
          if j + 1 < buf.len then
            if isWSb (buf.byte (j+1)) then go fuel (j+2) else (j, 1, .EOH)
          else (j, 0, .MoreBytes)
        else (j, 0, .Ok)
      else (j, 0, .MoreBytes)

/-- Value of one ASCII hex digit. -/
def hexDigit (c : Nat) : Option Nat :=
  if 48 ≤ c ∧ c ≤ 57 then some (c - 48)
  else if 97 ≤ c ∧ c ≤ 102 then some (c - 87)
  else if 65 ≤ c ∧ c ≤ 70 then some (c - 55)
  else none

/-- Modelled from the spec: §4.1 `hex_to_uint` (`hexToU`, not under src/):
parses a hex integer, ok = false on empty input or a non-hex byte (the
saturating overflow detection mentioned in the spec is not exercised by any
claim and is left out; the source notes the `NumTooBig` check as a TODO). -/
def hexToU (l : List Nat) : Nat × Bool :=
  match l with
  | [] => (0, false)
  | _ => go l 0
where
  go : List Nat → Nat → Nat × Bool
    | [], acc => (acc, true)
    | c :: rest, acc =>
      match hexDigit c with
      | some d => go rest (acc * 16 + d)
      | none => (0, false)

example : skipWS (Buf.ofList (strBytes ("  \tx"))) 0 = 3 := by decide
example : skipToken (Buf.ofList (strBytes ("HTTP/1.1 x"))) 0 = 8 := by decide
example : skipLWS (Buf.ofList (strBytes ("a: b"))) 1 0 = (1, 0, .Ok) := by decide
example : skipLWS (Buf.ofList (strBytes ("x\r\n y"))) 1 0 = (4, 0, .Ok) := by decide
example : skipLWS (Buf.ofList (strBytes ("x\r\nY"))) 1 0 = (1, 2, .EOH) := by decide
example : skipLWS (Buf.ofList (strBytes ("x\r"))) 1 0 = (1, 0, .MoreBytes) := by decide
example : hexToU (strBytes ("000e")) = (14, true) := by decide
example : hexToU (strBytes ("g")) = (0, false) := by decide

/-! ## Header types and name lookup (src/unnamed/part_006) -/

/-- HdrT is used to hold the header type as a numeric constant. -/
abbrev HdrT := Nat

def HdrNone : HdrT := 0
def HdrCLen : HdrT := 1
def HdrTrEncoding : HdrT := 2
def HdrUpgrade : HdrT := 3
def HdrCEncoding : HdrT := 4
def HdrHost : HdrT := 5
def HdrServer : HdrT := 6
def HdrOrigin : HdrT := 7
def HdrConnection : HdrT := 8
def HdrWSockKey : HdrT := 9
def HdrWSockProto : HdrT := 10
def HdrWSockAccept : HdrT := 11
def HdrWSockVer : HdrT := 12
def HdrWSockExt : HdrT := 13
def HdrOther : HdrT := 14

/-- HdrFlags packs several header values into bit flags (uint16 in the
source; all shifts used stay below 16 bits). -/
abbrev HdrFlags := Nat

def HdrCLenF : HdrFlags := 1 <<< HdrCLen
def HdrTrEncodingF : HdrFlags := 1 <<< HdrTrEncoding
def HdrUpgradeF : HdrFlags := 1 <<< HdrUpgrade
def HdrCEncodingF : HdrFlags := 1 <<< HdrCEncoding
def HdrHostF : HdrFlags := 1 <<< HdrHost
def HdrServerF : HdrFlags := 1 <<< HdrServer
def HdrOriginF : HdrFlags := 1 <<< HdrOrigin
def HdrConnectionF : HdrFlags := 1 <<< HdrConnection
def HdrWSockKeyF : HdrFlags := 1 <<< HdrWSockKey
def HdrWSockProtoF : HdrFlags := 1 <<< HdrWSockProto
def HdrWSockAcceptF : HdrFlags := 1 <<< HdrWSockAccept
def HdrWSockVerF : HdrFlags := 1 <<< HdrWSockVer
def HdrWSockExtF : HdrFlags := 1 <<< HdrWSockExt
def HdrOtherF : HdrFlags := 1 <<< HdrOther

/-- Set sets the header flag corresponding to the passed header type. -/
def HdrFlags.SetF (f : HdrFlags) (t : HdrT) : HdrFlags := f ||| (1 <<< t)

/-- Test returns true if the flag corresponding to the passed header type is
set. -/
def HdrFlags.TestF (f : HdrFlags) (t : HdrT) : Bool := (f &&& (1 <<< t)) != 0

/-- Associates a header name (lower case bytes) to a HdrT header type; the
list mirrors `hdrName2Type` in order. -/
def hdrName2Type : List (List Nat × HdrT) :=
  [ (strBytes ("content-length"), HdrCLen),
  (strBytes ("transfer-encoding"), HdrTrEncoding),
  (strBytes ("upgrade"), HdrUpgrade),
  (strBytes ("content-encoding"), HdrCEncoding),
  (strBytes ("host"), HdrHost),
  (strBytes ("server"), HdrServer),
  (strBytes ("connection"), HdrConnection),
  (strBytes ("sec-websocket-key"), HdrWSockKey),
  (strBytes ("sec-websocket-protocol"), HdrWSockProto),
  (strBytes ("sec-websocket-accept"), HdrWSockAccept),
  (strBytes ("sec-websocket-version"), HdrWSockVer),
  (strBytes ("sec-websocket-extensions"), HdrWSockExt),
  (strBytes ("origin"), HdrOrigin) ]

/-- Hash of a header name: `(ByteToLower(n[0]) & 31) | ((len(n) & 3) << 5)`
(`hnBitsFChar = 5`, `hnBitsLen = 2`).  Names are non-empty at every call
site (Go would panic on `n[0]` otherwise). -/
def hashHdrName (n : List Nat) : Nat :=
  (byteToLower (n.headD 0) &&& 31) ||| ((n.length &&& 3) <<< 5)

/-- The lookup bucket for a hash index, as built by the package `init`
function: the entries of `hdrName2Type` whose hash is the index, in table
order. -/
def hdrNameLookup (idx : Nat) : List (List Nat × HdrT) :=
  hdrName2Type.filter (fun e => hashHdrName e.1 == idx)

/-- GetHdrType returns the corresponding HdrT type for a given header name
(two-level lookup: hash bucket, then case-insensitive compare). -/
def GetHdrType (name : List Nat) : HdrT :=
  match (hdrNameLookup (hashHdrName name)).find? (fun e => cmpEq name e.1) with
  | some e => e.2
  | none => HdrOther

example : GetHdrType (strBytes ("Content-Length")) = HdrCLen := by decide
example : GetHdrType (strBytes ("cOnneCtion")) = HdrConnection := by decide
example : GetHdrType (strBytes ("Sec-WebSocket-Extensions")) = HdrWSockExt := by decide
example : GetHdrType (strBytes ("Foo")) = HdrOther := by decide

/-- Hdr contains a partial or fully parsed header (`HdrIState` is inlined as
the `state` field, as in the embedded Go struct). -/
structure Hdr where
  Typ : HdrT -- source field name: Type (a Lean keyword)
  Name : PField
  Val : PField
  state : Nat
  deriving DecidableEq, Repr

/-- The zero value of Hdr (fresh slot / after `Reset`). -/
def Hdr.initial : Hdr :=
  { Typ := HdrNone, Name := PField.Reset, Val := PField.Reset, state := 0 }

/-- Missing returns true if the header is empty (not parsed). -/
def Hdr.Missing (h : Hdr) : Bool := h.Typ == HdrNone

/-- HdrLst groups a list of parsed headers.  `h` is the fixed table of first
occurrences per recognised type (`int(HdrOther) - 1 = 13` slots); `hdr` is the
scratch header from `HdrLstIState`. -/
structure HdrLst where
  PFlags : HdrFlags
  N : Nat
  Hdrs : List Hdr
  h : List Hdr
  hdr : Hdr
  deriving DecidableEq, Repr

/-- A fresh HdrLst with a caller-supplied parsed-header slot list. -/
def HdrLst.mk0 (slots : List Hdr) : HdrLst :=
  { PFlags := 0, N := 0, Hdrs := slots,
    h := List.replicate 13 Hdr.initial, hdr := Hdr.initial }

/-- Reset re-initializes the parsing state and values, keeping (and
resetting) the caller-supplied slot list. -/
def HdrLst.Reset (hl : HdrLst) : HdrLst :=
  HdrLst.mk0 (List.replicate hl.Hdrs.length Hdr.initial)

/-- SetHdr adds a new header to the internal first-occurrence table if not
already present; returns the updated list (the source also returns a bool the
callers ignore). -/
def HdrLst.SetHdr (hl : HdrLst) (newhdr : Hdr) : HdrLst :=
  if newhdr.Typ ≥ 1 ∧ newhdr.Typ - 1 < hl.h.length ∧
      (hl.h.getD (newhdr.Typ - 1) Hdr.initial).Missing then
    { hl with h := hl.h.set (newhdr.Typ - 1) newhdr }
  else hl

/-- The header slot the next `ParseHdrLine` call inside `ParseHeaders` will
use: `&hl.Hdrs[hl.N]` when there is room, else the scratch `&hl.hdr`. -/
def HdrLst.curSlot (hl : HdrLst) : Hdr :=
  if hl.N < hl.Hdrs.length then hl.Hdrs.getD hl.N Hdr.initial else hl.hdr

/-- Write the (possibly mutated) current header slot back (Go mutates it in
place through the pointer). -/
def HdrLst.putSlot (hl : HdrLst) (h : Hdr) : HdrLst :=
  if hl.N < hl.Hdrs.length then { hl with Hdrs := hl.Hdrs.set hl.N h }
  else { hl with hdr := h }

/-! ## Content-Length value (PUIntBody / ParseCLenVal, not under src/) -/

/-- Modelled from the spec: the parsed unsigned-integer header body
(`PUIntBody`, not under src/): the numeric value, the span of its digits
(`SVal`) and an internal state whose final value makes `Parsed()` true. -/
structure PUIntBody where
  UIVal : Nat
  SVal : PField
  state : Nat
  deriving DecidableEq, Repr

/-- A fresh (reset) PUIntBody. -/
def PUIntBody.initial : PUIntBody := { UIVal := 0, SVal := PField.Reset, state := 0 }

/-- Parsed returns true if a value has been fully parsed. -/
def PUIntBody.Parsed (b : PUIntBody) : Bool := b.state == 1

/-- First non-decimal-digit offset at or after `i`. -/
def skipDigits (buf : Buf) (i : Nat) : Nat := go (buf.len - i) i
where
  go : Nat → Nat → Nat
    | 0, j => j
    | fuel+1, j =>
      if j < buf.len && (48 ≤ buf.byte j && buf.byte j ≤ 57) then go fuel (j+1)
      else j

/-- Decimal value of the digits in `buf[s:e)`. -/
def digitsVal (buf : Buf) (s e : Nat) : Nat := go (e - s) s 0
where
  go : Nat → Nat → Nat → Nat
    | 0, _, acc => acc
    | fuel+1, j, acc => go fuel (j+1) (acc * 10 + (buf.byte j - 48))

/-- Modelled from the spec: `ParseCLenVal` (not under src/): "Content-Length
parses a decimal unsigned integer" (§4.3), with the same line discipline as
the other header-value parsers: skip leading LWS, read a digit run, require
only LWS up to the end of the header line, and return the offset just past the
line end together with the filled PUIntBody (`SVal` = digit span, `Parsed`
true).  `MoreBytes` is returned with the start offset when the line end is not
in the buffer yet; a missing or malformed number yields `ValNotNumber`. -/
def ParseCLenVal (buf : Buf) (offs : Nat) (b : PUIntBody) :
    Nat × ErrorHdr × PUIntBody :=
  match skipLWS buf offs 0 with
  | (n, _, .Ok) =>
    let e := skipDigits buf n
    if e == n then (n, .ValNotNumber, b)
    else if e ≥ buf.len then (offs, .MoreBytes, b)
    else
      match skipLWS buf e 0 with
      | (n2, crl, .EOH) =>
        (n2 + crl, .Ok,
          { UIVal := digitsVal buf n e, SVal := PField.Set n e, state := 1 })
      | (_, _, .MoreBytes) => (offs, .MoreBytes, b)
      | (n2, _, .Ok) => (n2, .ValNotNumber, b)
      | (n2, _, err) => (n2, err, b)
  | (n, _, .EOH) => (n, .ValNotNumber, b)
  | (_, _, .MoreBytes) => (offs, .MoreBytes, b)
  | (n, _, err) => (n, err, b)

example :
    ParseCLenVal (Buf.ofList (strBytes (" 12345\r\nX"))) 0 PUIntBody.initial =
      (8, .Ok, { UIVal := 12345, SVal := PField.Set 1 6, state := 1 }) := by
  decide

example :
    (ParseCLenVal (Buf.ofList (strBytes (" 123"))) 0 PUIntBody.initial).2.1 =
      .MoreBytes := by decide

/-! ## Token list parser (src/parse_tok.go, first file) -/

/-- PTokParam contains a token parameter (`All`/`Name`/`Val` spans plus the
internal state byte). -/
structure PTokParam where
  All : PField
  Name : PField
  Val : PField
  state : Nat
  deriving DecidableEq, Repr

/-- The zero value of PTokParam (after `Reset`). -/
def PTokParam.initial : PTokParam :=
  { All := PField.Reset, Name := PField.Reset, Val := PField.Reset, state := 0 }

/-- Empty returns true when nothing was stored in `All`. -/
def PTokParam.isEmptyP (p : PTokParam) : Bool := p.All.Empty

/-- Internal parser states of the token parser. -/
def tokInit : Nat := 0
def tokName : Nat := 1
def tokWS : Nat := 2
def tokFNxt : Nat := 3
def tokFParam : Nat := 4
def tokPName : Nat := 5
def tokPVal : Nat := 6
def tokPVQuoted : Nat := 7
def tokFIN : Nat := 8
def tokERR : Nat := 9

/-- Token parsing flags (Go const block with `1 << iota` starting at the
second entry). -/
def PTokNoneF : Nat := 0
def PTokCommaSepF : Nat := 2
def PTokSpSepF : Nat := 4
def PTokAllowSlashF : Nat := 8
def PTokAllowParamsF : Nat := 16
def PTokInputEndF : Nat := 32

/-- PToken contains a parsed token with its internal parsing state
(`PTokIState` inlined as `state`/`soffs`). -/
structure PToken where
  V : PField
  SepOffs : Nat
  Params : PField
  ParamsNo : Nat
  LastParam : PTokParam
  ParamLst : List PTokParam
  state : Nat
  soffs : Nat
  deriving DecidableEq, Repr

/-- The zero value of PToken. -/
def PToken.initial : PToken :=
  { V := PField.Reset, SepOffs := 0, Params := PField.Reset, ParamsNo := 0,
    LastParam := PTokParam.initial, ParamLst := [], state := tokInit, soffs := 0 }

/-- Reset re-initializes the token, keeping the `ParamLst` placeholder. -/
def PToken.Reset (pt : PToken) : PToken :=
  { PToken.initial with ParamLst := pt.ParamLst }

/-- Returns true if c is an allowed ASCII char inside a token name or value
(no control, space or non-visible chars, rfc7230 3.2.6). -/
def tokAllowedChar (c : Nat) : Bool := !(c ≤ 32 || c ≥ 127)

/-- Internal parser states of the parameter parser. -/
def paramInit : Nat := 0
def paramName : Nat := 1
def paramFEq : Nat := 2
def paramFVal : Nat := 3
def paramVal : Nat := 4
def paramFSemi : Nat := 5
def paramFNxt : Nat := 6
def paramInitNxtVal : Nat := 7
def paramQuotedVal : Nat := 8
def paramERR : Nat := 9
def paramFIN : Nat := 10

/-- SkipQuoted skips a quoted string (called with offs pointing inside the
open quotes), handling `\x` escapes and rejecting CR/LF and other control
bytes. -/
def SkipQuoted (buf : Buf) (offs : Nat) : Nat × ErrorHdr :=
  go (buf.len + 1 - offs) offs
where
  go : Nat → Nat → Nat × ErrorHdr
    | 0, i => (i, .MoreBytes)
    | fuel+1, i =>
      if i < buf.len then
        let c := buf.byte i
        if c == 34 then (i + 1, .Ok)
        else if c == 92 then
          if i + 1 < buf.len then
            if buf.byte (i+1) == 13 || buf.byte (i+1) == 10 then (i + 1, .BadChar)
            else go fuel (i+2)
          else (i, .MoreBytes)
        else if c == 10 || c == 13 || c == 127 then (i, .BadChar)
        else if c < 33 && !(c == 32) && !(c == 9) then (i, .BadChar)
        else go fuel (i+1)
      else (i, .MoreBytes)

example : SkipQuoted (Buf.ofList (strBytes ("q1 bar\""))) 0 = (7, .Ok) := by decide
example : SkipQuoted (Buf.ofList (strBytes ("q4 bar\\"))) 0 = (6, .MoreBytes) := by decide
example : SkipQuoted (Buf.ofList (strBytes ("q5 bar\n"))) 0 = (6, .BadChar) := by decide

/-- Bytes that may not start or continue a parameter name (the explicit Go
case lists, parameterized below by which extras are included). -/
def pbad1 (c : Nat) : Bool :=
  c == 40 || c == 41 || c == 60 || c == 62 || c == 64 || c == 58 || c == 92 ||
  c == 34 || c == 91 || c == 93 || c == 63 || c == 123 || c == 125 || c == 47

/-- ParseTokenParam parses one `param [= value]` of a token, resumable; see
the source contract (Ok / EOH / MoreValues / MoreBytes / BadChar). -/
def ParseTokenParam (buf : Buf) (offs : Nat) (param0 : PTokParam) (flags : Nat) :
    Nat × ErrorHdr × PTokParam :=
  if param0.state == paramFIN then (offs, .Ok, param0)
  else go (buf.len + 4) offs 0 param0
where
  /-- The `endOfHdr` label. -/
  eohB (n crl : Nat) (param : PTokParam) : Nat × ErrorHdr × PTokParam :=
    if param.state == paramInit || param.state == paramInitNxtVal then
      (n + crl, .EOH, param)
    else if param.state == paramFNxt || param.state == paramName ||
        param.state == paramFEq || param.state == paramFVal ||
        param.state == paramVal || param.state == paramFSemi then
      (n + crl, .EOH, { param with state := paramFIN })
    else (n + crl, .Bug, { param with state := paramERR })
  /-- The `moreBytes` label (`i` is the resume offset). -/
  mbB (i : Nat) (param : PTokParam) : Nat × ErrorHdr × PTokParam :=
    if flags &&& PTokInputEndF != 0 then
      if param.state == paramInit || param.state == paramInitNxtVal ||
          param.state == paramFNxt || param.state == paramFSemi ||
          param.state == paramFVal || param.state == paramFEq then
        eohB buf.len 0 param
      else if param.state == paramName then
        eohB buf.len 0
          { param with Name := param.Name.Extend i, All := param.All.Extend i }
      else if param.state == paramVal then
        eohB buf.len 0
          { param with Val := param.Val.Extend i, All := param.All.Extend i }
      else if param.state == paramQuotedVal then (i, .MoreBytes, param)
      else (i, .Bug, param)
    else (i, .MoreBytes, param)
  /-- The `moreValues` label. -/
  mvB (i : Nat) (param : PTokParam) : Nat × ErrorHdr × PTokParam :=
    if param.state == paramFNxt then
      (i, .MoreValues, { param with state := paramInitNxtVal })
    else (i, .Bug, { param with state := paramERR })
  go : Nat → Nat → Nat → PTokParam → Nat × ErrorHdr × PTokParam
    | 0, i, _, param => mbB i param
    | fuel+1, i, crl, param =>
      if i < buf.len then
        let c := buf.byte i
        if param.state == paramInit || param.state == paramInitNxtVal ||
            param.state == paramFNxt then
          if isWSb c || c == 10 || c == 13 then
            match skipLWS buf i flags with
            | (_, _, .MoreBytes) => mbB i param
            | (n, crl', .Ok) => go fuel n crl' param
            | (n, crl', .EOH) => eohB n crl' param
            | (n, _, err) => (n, err, param)
          else if c == 59 then go fuel (i+1) crl param
          else if pbad1 c || c == 61 || c == 44 then
            (i, .BadChar, { param with state := paramERR })
          else if !tokAllowedChar c then
            (i, .BadChar, { param with state := paramERR })
          else if param.state == paramFNxt then mvB i param
          else
            go fuel (i+1) crl
              { param with
                state := paramName, Name := PField.Set i i, All := PField.Set i i }
        else if param.state == paramName then
          if isWSb c || c == 10 || c == 13 then
            match skipLWS buf i flags with
            | (_, _, .MoreBytes) => mbB i param
            | (n, crl', err) =>
              let param :=
                { param with
                  state := paramFEq, Name := param.Name.Extend i, All := param.All.Extend i }
              match err with
              | .Ok => go fuel n crl' param
              | .EOH => eohB n crl' param
              | _ => (n, err, param)
          else if c == 59 then
            go fuel (i+1) crl
              { param with
                Name := param.Name.Extend i, All := param.All.Extend i, state := paramFNxt }
          else if c == 61 then
            go fuel (i+1) crl
              { param with
                Name := param.Name.Extend i, All := param.All.Extend (i+1), state := paramFVal }
          else if c == 44 then
            if flags &&& PTokCommaSepF != 0 then
              (i, .Ok,
                { param with
                  Name := param.Name.Extend i, All := param.All.Extend i, state := paramFIN })
            else (i, .BadChar, { param with state := paramERR })
          else if pbad1 c then (i, .BadChar, { param with state := paramERR })
          else if !tokAllowedChar c then (i, .BadChar, { param with state := paramERR })
          else go fuel (i+1) crl param
        else if param.state == paramFEq then
          if isWSb c || c == 10 || c == 13 then
            match skipLWS buf i flags with
            | (_, _, .MoreBytes) => mbB i param
            | (n, crl', .Ok) => go fuel n crl' param
            | (n, crl', .EOH) => eohB n crl' param
            | (n, _, err) => (n, err, param)
          else if c == 59 then go fuel (i+1) crl { param with state := paramFNxt }
          else if c == 61 then go fuel (i+1) crl { param with state := paramFVal }
          else if c == 44 then
            if flags &&& PTokCommaSepF != 0 then
              (i, .Ok, { param with state := paramFIN })
            else (i, .BadChar, { param with state := paramERR })
          else if pbad1 c then (i, .BadChar, { param with state := paramERR })
          else if !tokAllowedChar c then (i, .BadChar, { param with state := paramERR })
          else if flags &&& PTokSpSepF != 0 then
            if i ≥ offs + 1 then (i - 1, .Ok, { param with state := paramFIN })
            else (i, .Ok, { param with state := paramFIN })
          else (i, .BadChar, { param with state := paramERR })
        else if param.state == paramFVal then
          if isWSb c || c == 10 || c == 13 then
            match skipLWS buf i flags with
            | (_, _, .MoreBytes) => mbB i param
            | (n, crl', .Ok) => go fuel n crl' param
            | (n, crl', .EOH) => eohB n crl' param
            | (n, _, err) => (n, err, param)
          else if c == 59 then
            go fuel (i+1) crl
              { param with
                Val := PField.Set i i, All := param.All.Extend i, state := paramFNxt }
          else if c == 44 then
            if flags &&& PTokCommaSepF != 0 then
              (i, .Ok, { param with Val := PField.Set i i, state := paramFIN })
            else (i, .BadChar, { param with state := paramERR })
          else if c == 34 then
            go fuel (i+1) crl
              { param with
                Val := PField.Set i i, All := param.All.Extend i, state := paramQuotedVal }
          else if c == 40 || c == 41 || c == 60 || c == 62 || c == 64 ||
              c == 58 || c == 92 || c == 91 || c == 93 || c == 63 ||
              c == 61 || c == 123 || c == 125 || c == 47 then
            (i, .BadChar, { param with state := paramERR })
          else if !tokAllowedChar c then (i, .BadChar, { param with state := paramERR })
          else
            go fuel (i+1) crl
              { param with
                state := paramVal, Val := PField.Set i i, All := param.All.Extend i }
        else if param.state == paramVal then
          if isWSb c || c == 10 || c == 13 then
            match skipLWS buf i flags with
            | (_, _, .MoreBytes) => mbB i param
            | (n, crl', err) =>
              let param :=
                { param with
                  state := paramFSemi, Val := param.Val.Extend i, All := param.All.Extend i }
              match err with
              | .Ok => go fuel n crl' param
              | .EOH => eohB n crl' param
              | _ => (n, err, param)
          else if c == 59 then
            go fuel (i+1) crl
              { param with
                Val := param.Val.Extend i, All := param.All.Extend i, state := paramFNxt }
          else if c == 44 then
            if flags &&& PTokCommaSepF != 0 then
              (i, .Ok,
                { param with
                  Val := param.Val.Extend i, All := param.All.Extend i, state := paramFIN })
            else (i, .BadChar, { param with state := paramERR })
          else if pbad1 c || c == 61 then (i, .BadChar, { param with state := paramERR })
          else if !tokAllowedChar c then (i, .BadChar, { param with state := paramERR })
          else go fuel (i+1) crl param
        else if param.state == paramQuotedVal then
          match SkipQuoted buf i with
          | (n, .MoreBytes) => mbB n param
          | (n, .Ok) =>
            go fuel n crl
              { param with
                Val := param.Val.Extend n, All := param.All.Extend n, state := paramFSemi }
          | (_, .EOH) => eohB i crl param
          | (n, err) => (n, err, param)
        else if param.state == paramFSemi then
          if isWSb c || c == 10 || c == 13 then
            match skipLWS buf i flags with
            | (_, _, .MoreBytes) => mbB i param
            | (n, crl', .Ok) => go fuel n crl' param
            | (n, crl', .EOH) => eohB n crl' param
            | (n, _, err) => (n, err, param)
          else if c == 59 then go fuel (i+1) crl { param with state := paramFNxt }
          else if c == 44 then
            if flags &&& PTokCommaSepF != 0 then
              (i, .Ok, { param with state := paramFIN })
            else (i, .BadChar, { param with state := paramERR })
          else if pbad1 c || c == 61 then (i, .BadChar, { param with state := paramERR })
          else if !tokAllowedChar c then (i, .BadChar, { param with state := paramERR })
          else if flags &&& PTokSpSepF != 0 then
            if i ≥ offs + 1 then (i - 1, .Ok, { param with state := paramFIN })
            else (i, .Ok, { param with state := paramFIN })
          else (i, .BadChar, { param with state := paramERR })
        else go fuel (i+1) crl param
      else mbB i param

/-- ParseTokenLst iterates through a comma or space separated token list,
returning one token at a time; see the source contract (Ok / MoreValues /
MoreBytes / Empty / BadChar and the `PTok*F` flags). -/
def ParseTokenLst (buf : Buf) (offs : Nat) (ptok0 : PToken) (flags : Nat) :
    Nat × ErrorHdr × PToken :=
  if ptok0.state == tokFIN then (offs, .Ok, ptok0)
  else go (buf.len + 4) offs ptok0.soffs 0 ptok0
where
  /-- The `endOfHdr` label. -/
  eohB (n crl : Nat) (retOkErr : ErrorHdr) (ptok : PToken) :
      Nat × ErrorHdr × PToken :=
    if ptok.state == tokInit then (n + crl, .Empty, ptok)
    else if ptok.state == tokName || ptok.state == tokWS ||
        ptok.state == tokFNxt || ptok.state == tokFParam then
      (n + crl, retOkErr, { ptok with state := tokFIN, soffs := 0 })
    else (n + crl, .Bug, { ptok with state := tokERR })
  /-- The `moreBytes` label (`i` is the resume offset, `s` the token start to
  save in `soffs`). -/
  mbB (i s : Nat) (ptok : PToken) : Nat × ErrorHdr × PToken :=
    if flags &&& PTokInputEndF != 0 then
      if ptok.state == tokInit || ptok.state == tokWS ||
          ptok.state == tokFNxt || ptok.state == tokFParam then
        eohB buf.len 0 .Ok { ptok with soffs := s }
      else if ptok.state == tokName then
        eohB buf.len 0 .Ok { ptok with V := ptok.V.Extend i, soffs := s }
      else (i, .Bug, { ptok with state := tokERR })
    else (i, .MoreBytes, { ptok with soffs := s })
  /-- The `moreValues` label. -/
  mvB (i : Nat) (ptok : PToken) : Nat × ErrorHdr × PToken :=
    if ptok.state == tokWS || ptok.state == tokFNxt then
      (i, .MoreValues, { ptok with soffs := 0 })
    else (i, .Bug, { ptok with state := tokERR })
  go : Nat → Nat → Nat → Nat → PToken → Nat × ErrorHdr × PToken
    | 0, i, s, _, ptok => mbB i s ptok
    | fuel+1, i, s, crl, ptok =>
      if i < buf.len then
        let c := buf.byte i
        if ptok.state == tokInit then
          if isWSb c || c == 10 || c == 13 then
            match skipLWS buf i flags with
            | (n, crl', .Ok) => go fuel n s crl' ptok
            | (n, crl', .EOH) => eohB n crl' .Ok ptok
            | (n, _, .MoreBytes) => mbB n s ptok
            | (n, _, err) => (n, err, { ptok with state := tokERR })
          else if c == 44 then
            if flags &&& PTokCommaSepF != 0 then go fuel (i+1) s crl ptok
            else (i, .BadChar, { ptok with state := tokERR })
          else if c == 40 || c == 41 || c == 60 || c == 62 || c == 64 ||
              c == 59 || c == 58 || c == 92 || c == 34 || c == 91 ||
              c == 93 || c == 63 || c == 61 || c == 123 || c == 125 ||
              c == 47 then
            (i, .BadChar, { ptok with state := tokERR })
          else if !tokAllowedChar c then
            (i, .BadChar, { ptok with state := tokERR })
          else
            go fuel (i+1) i crl
              { ptok with V := PField.Set i i, state := tokName }
        else if ptok.state == tokName then
          if isWSb c || c == 10 || c == 13 then
            match skipLWS buf i flags with
            | (_, _, .MoreBytes) => mbB i s ptok
            | (n, crl', err) =>
              let ptok := { ptok with state := tokWS, V := ptok.V.Extend i }
              match err with
              | .Ok => go fuel n s crl' ptok
              | .EOH => eohB n crl' .Ok ptok
              | _ => (n, err, { ptok with state := tokERR })
          else if c == 44 then
            if flags &&& PTokCommaSepF != 0 then
              go fuel (i+1) s crl
                { ptok with V := ptok.V.Extend i, state := tokFNxt }
            else (i, .BadChar, { ptok with state := tokERR })
          else if c == 40 || c == 41 || c == 60 || c == 62 || c == 64 ||
              c == 58 || c == 92 || c == 34 || c == 91 || c == 93 ||
              c == 63 || c == 61 || c == 123 || c == 125 then
            (i, .BadChar, { ptok with state := tokERR })
          else if c == 47 then
            if flags &&& PTokAllowSlashF == 0 then (i, .BadChar, ptok)
            else go fuel (i+1) s crl { ptok with SepOffs := i % 65536 }
          else if c == 59 then
            if flags &&& PTokAllowParamsF == 0 then (i, .BadChar, ptok)
            else
              go fuel (i+1) s crl
                { ptok with V := ptok.V.Extend i, state := tokFParam }
          else if !tokAllowedChar c then
            (i, .BadChar, { ptok with state := tokERR })
          else go fuel (i+1) s crl ptok
        else if ptok.state == tokWS then
          if isWSb c || c == 10 || c == 13 then
            match skipLWS buf i flags with
            | (_, _, .MoreBytes) => mbB i s ptok
            | (n, crl', .Ok) => go fuel n s crl' ptok
            | (n, crl', .EOH) => eohB n crl' .Ok ptok
            | (n, _, err) => (n, err, { ptok with state := tokERR })
          else if c == 44 then
            if flags &&& PTokCommaSepF != 0 then
              go fuel (i+1) s crl { ptok with state := tokFNxt }
            else (i, .BadChar, { ptok with state := tokERR })
          else if c == 59 then
            if flags &&& PTokAllowParamsF == 0 then (i, .BadChar, ptok)
            else go fuel (i+1) s crl { ptok with state := tokFParam }
          else if flags &&& PTokSpSepF != 0 then mvB i ptok
          else (i, .BadChar, { ptok with state := tokERR })
        else if ptok.state == tokFNxt then
          if isWSb c || c == 10 || c == 13 then
            match skipLWS buf i flags with
            | (_, _, .MoreBytes) => mbB i s ptok
            | (n, crl', .Ok) => go fuel n s crl' ptok
            | (n, crl', .EOH) => eohB n crl' .Ok ptok
            | (n, _, err) => (n, err, { ptok with state := tokERR })
          else if c == 44 then
            if flags &&& PTokCommaSepF == 0 then
              (i, .BadChar, { ptok with state := tokERR })
            else go fuel (i+1) s crl ptok
          else if c == 40 || c == 41 || c == 60 || c == 62 || c == 64 ||
              c == 59 || c == 58 || c == 92 || c == 34 || c == 91 ||
              c == 93 || c == 63 || c == 61 || c == 123 || c == 125 ||
              c == 47 then
            (i, .BadChar, { ptok with state := tokERR })
          else mvB i ptok
        else if ptok.state == tokFParam then
          match ParseTokenParam buf i ptok.LastParam flags with
          | (n, err, lp) =>
            let ptok := { ptok with LastParam := lp }
            if err == .MoreBytes then mbB n s ptok
            else
              let ptok :=
                if !lp.isEmptyP then
                  let ptok :=
                    if ptok.ParamLst.length > ptok.ParamsNo then
                      { ptok with ParamLst := ptok.ParamLst.set ptok.ParamsNo lp }
                    else ptok
                  { ptok with
                    ParamsNo := ptok.ParamsNo + 1, Params := if ptok.Params.Empty then lp.All else ptok.Params.Extend (lp.All.Offs + lp.All.Len) }
                else ptok
              if err == .MoreValues then go fuel n s crl ptok
              else if err == .Ok then
                let ptok := { ptok with state := tokFNxt }
                if n ≥ buf.len then mbB (n+1) s ptok
                else go fuel (n+1) s crl ptok
              else if err == .EOH then eohB n crl .Ok ptok
              else (n, err, { ptok with state := tokERR })
        else (i, .Bug, ptok)
      else mbB i s ptok

/-- Convenient check results from a token parse (offset, error, token span
bytes, resulting state). -/
def tokRes (s : String) (offs : Nat) (flags : Nat) :
    Nat × ErrorHdr × List Nat :=
  let buf := Buf.ofList (strBytes s)
  match ParseTokenLst buf offs PToken.initial flags with
  | (n, err, tk) => (n, err, tk.V.Get buf)

example : tokRes ("chunked\r\nX") 0 PTokAllowParamsF =
    (9, .Ok, strBytes ("chunked")) := by decide
example : tokRes ("gzip, chunked\r\nX") 0 PTokCommaSepF =
    (6, .MoreValues, strBytes ("gzip")) := by decide
example : tokRes ("gzip, chunked\r\nX") 6 PTokCommaSepF =
    (15, .Ok, strBytes ("chunked")) := by decide
example : tokRes ("  tok  \r\nX") 0 PTokNoneF =
    (9, .Ok, strBytes ("tok")) := by decide
example : tokRes ("0\r\n\r\n") 0 PTokAllowParamsF =
    (3, .Ok, strBytes ("0")) := by decide
example : tokRes ("foo;p1=v1\r\nX") 0 PTokAllowParamsF =
    (11, .Ok, strBytes ("foo")) := by decide
example :
    (ParseTokenParam (Buf.ofList (strBytes ("p2=v2\r\nX"))) 0
        PTokParam.initial 0).1 = 7 := by decide
example :
    (ParseTokenParam (Buf.ofList (strBytes ("p6=v6;foo=bar\r\nX"))) 0
        PTokParam.initial 0).2.1 = .MoreValues := by decide

/-! ## Transfer-Encoding values (src/parse_tr_enc.go) -/

/-- TrEncT transfer-coding flag values (Go `1 << iota` starting at 1). -/
abbrev TrEncT := Nat

def TrEncNone : TrEncT := 0
def TrEncChunkedF : TrEncT := 2
def TrEncCompressF : TrEncT := 4
def TrEncDeflateF : TrEncT := 8
def TrEncGzipF : TrEncT := 16
def TrEncIdentityF : TrEncT := 32
def TrEncTrailersF : TrEncT := 64
def TrEncXCompressF : TrEncT := 128
def TrEncXGzipF : TrEncT := 256
def TrEncOtherF : TrEncT := 512

/-- TrEncResolve resolves a transfer-coding name to its numeric flag
(switch on the length, then case-insensitive compares). -/
def TrEncResolve (n : List Nat) : TrEncT :=
  if n.length == 7 then
    if cmpEq n (strBytes ("chunked")) then TrEncChunkedF
    else if cmpEq n (strBytes ("deflate")) then TrEncDeflateF
    else TrEncOtherF
  else if n.length == 8 then
    if cmpEq n (strBytes ("compress")) then TrEncCompressF
    else if cmpEq n (strBytes ("identity")) then TrEncIdentityF
    else if cmpEq n (strBytes ("trailers")) then TrEncTrailersF
    else TrEncOtherF
  else if n.length == 4 then
    if cmpEq n (strBytes ("gzip")) then TrEncGzipF else TrEncOtherF
  else if n.length == 10 then
    if cmpEq n (strBytes ("x-compress")) then TrEncXCompressF else TrEncOtherF
  else if n.length == 6 then
    if cmpEq n (strBytes ("x-gzip")) then TrEncXGzipF else TrEncOtherF
  else TrEncOtherF

/-- TrEncVal contains a parsed Transfer-Encoding value. -/
structure TrEncVal where
  Val : PToken
  Enc : TrEncT
  deriving DecidableEq, Repr

/-- Reset re-initializes the value (keeping the token ParamLst placeholder). -/
def TrEncVal.Reset (v : TrEncVal) : TrEncVal :=
  { Val := v.Val.Reset, Enc := TrEncNone }

/-- The zero value of TrEncVal. -/
def TrEncVal.initial : TrEncVal := { Val := PToken.initial, Enc := TrEncNone }

/-- PTrEnc contains the parsed Transfer-Encoding header values of a message. -/
structure PTrEnc where
  Vals : List TrEncVal
  N : Nat
  HNo : Nat
  Encodings : TrEncT
  LastParsed : PField
  First : TrEncVal
  Last : TrEncVal
  tmp : TrEncVal
  deriving DecidableEq, Repr

/-- The zero value of PTrEnc. -/
def PTrEnc.initial : PTrEnc :=
  { Vals := [], N := 0, HNo := 0, Encodings := TrEncNone,
    LastParsed := PField.Reset, First := TrEncVal.initial,
    Last := TrEncVal.initial, tmp := TrEncVal.initial }

/-- ParseAllTrEncValues parses all values of one Transfer-Encoding header at
offs and accumulates them into the PTrEnc aggregate; returns (new offset,
number of values parsed in this call, error, updated aggregate). -/
def ParseAllTrEncValues (buf : Buf) (offs : Nat) (u0 : PTrEnc) :
    Nat × Nat × ErrorHdr × PTrEnc :=
  go (buf.len + 4) offs 0 { u0 with LastParsed := PField.Reset }
where
  go : Nat → Nat → Nat → PTrEnc → Nat × Nat × ErrorHdr × PTrEnc
    | 0, offs, vNo, u => (offs, vNo, .Bug, u)
    | fuel+1, offs, vNo, u =>
      let idx := u.N
      let useSlot := idx < u.Vals.length
      let pv := if useSlot then u.Vals.getD idx TrEncVal.initial else u.tmp
      match ParseTokenLst buf offs pv.Val (PTokCommaSepF ||| PTokAllowParamsF) with
      | (next, err, val') =>
        if err == .Ok || err == .MoreValues then
          let lastParsed :=
            if vNo == 0 then val'.V
            else u.LastParsed.Extend (val'.V.Offs + val'.V.Len)
          let pv : TrEncVal := { Val := val', Enc := TrEncResolve (val'.V.Get buf) }
          let u :=
            { u with
              LastParsed := lastParsed,
              Encodings := u.Encodings ||| pv.Enc, N := u.N + 1 }
          let u :=
            if useSlot then { u with Vals := u.Vals.set idx pv }
            else { u with tmp := pv }
          let u :=
            if u.N == 1 && u.Vals.length == 0 then { u with First := pv } else u
          let u := { u with Last := pv }
          let u := if !useSlot then { u with tmp := u.tmp.Reset } else u
          if err == .MoreValues then go fuel next (vNo+1) u
          else (next, vNo+1, err, u)
        else if err == .MoreBytes then
          let u :=
            if useSlot then { u with Vals := u.Vals.set idx { pv with Val := val' } }
            else { u with tmp := { pv with Val := val' } }
          (next, vNo, err, u)
        else
          let u :=
            if useSlot then
              { u with Vals := u.Vals.set idx ({ pv with Val := val' }.Reset) }
            else { u with tmp := { pv with Val := val' }.Reset }
          (next, vNo, err, u)

/-! ## Upgrade protocol values (src/unnamed/part_001) -/

/-- UpgProtoT upgrade-protocol flag values. -/
abbrev UpgProtoT := Nat

def UProtoNone : UpgProtoT := 0
def UProtoWSockF : UpgProtoT := 2
def UProtoHTTP2F : UpgProtoT := 4
def UProtoOtherF : UpgProtoT := 8

/-- UpgProtoResolve resolves an Upgrade protocol name to its numeric flag. -/
def UpgProtoResolve (n : List Nat) : UpgProtoT :=
  if n.length == 9 && cmpEq n (strBytes ("websocket")) then UProtoWSockF
  else if n.length == 3 && cmpEq n (strBytes ("h2c")) then UProtoHTTP2F
  else if n.length == 8 && cmpEq n (strBytes ("http/2.0")) then UProtoHTTP2F
  else UProtoOtherF

/-- UpgProtoVal contains a parsed Upgrade protocol value. -/
structure UpgProtoVal where
  Val : PToken
  Proto : UpgProtoT
  deriving DecidableEq, Repr

/-- Reset re-initializes the value. -/
def UpgProtoVal.Reset (v : UpgProtoVal) : UpgProtoVal :=
  { Val := v.Val.Reset, Proto := UProtoNone }

/-- The zero value of UpgProtoVal. -/
def UpgProtoVal.initial : UpgProtoVal :=
  { Val := PToken.initial, Proto := UProtoNone }

/-- PUpgrade contains the parsed Upgrade header values of a message. -/
structure PUpgrade where
  Vals : List UpgProtoVal
  N : Nat
  HNo : Nat
  Protos : UpgProtoT
  LastParsed : PField
  tmp : UpgProtoVal
  first : UpgProtoVal
  deriving DecidableEq, Repr

/-- The zero value of PUpgrade. -/
def PUpgrade.initial : PUpgrade :=
  { Vals := [], N := 0, HNo := 0, Protos := UProtoNone,
    LastParsed := PField.Reset, tmp := UpgProtoVal.initial,
    first := UpgProtoVal.initial }

/-- ParseAllUpgradeValues parses all values of one Upgrade header at offs and
accumulates them into the PUpgrade aggregate. -/
def ParseAllUpgradeValues (buf : Buf) (offs : Nat) (u0 : PUpgrade) :
    Nat × Nat × ErrorHdr × PUpgrade :=
  go (buf.len + 4) offs 0 { u0 with LastParsed := PField.Reset }
where
  go : Nat → Nat → Nat → PUpgrade → Nat × Nat × ErrorHdr × PUpgrade
    | 0, offs, vNo, u => (offs, vNo, .Bug, u)
    | fuel+1, offs, vNo, u =>
      let idx := u.N
      let useSlot := idx < u.Vals.length
      let pv := if useSlot then u.Vals.getD idx UpgProtoVal.initial else u.tmp
      match ParseTokenLst buf offs pv.Val (PTokCommaSepF ||| PTokAllowSlashF) with
      | (next, err, val') =>
        if err == .Ok || err == .MoreValues then
          let lastParsed :=
            if vNo == 0 then val'.V
            else u.LastParsed.Extend (val'.V.Offs + val'.V.Len)
          let pv : UpgProtoVal := { Val := val', Proto := UpgProtoResolve (val'.V.Get buf) }
          let u :=
            { u with
              LastParsed := lastParsed,
              Protos := u.Protos ||| pv.Proto, N := u.N + 1 }
          let u :=
            if useSlot then { u with Vals := u.Vals.set idx pv }
            else { u with tmp := pv }
          let u :=
            if u.N == 1 && u.Vals.length == 0 then { u with first := pv } else u
          let u := if !useSlot then { u with tmp := u.tmp.Reset } else u
          if err == .MoreValues then go fuel next (vNo+1) u
          else (next, vNo+1, err, u)
        else if err == .MoreBytes then
          let u :=
            if useSlot then { u with Vals := u.Vals.set idx { pv with Val := val' } }
            else { u with tmp := { pv with Val := val' } }
          (next, vNo, err, u)
        else
          let u :=
            if useSlot then
              { u with Vals := u.Vals.set idx ({ pv with Val := val' }.Reset) }
            else { u with tmp := { pv with Val := val' }.Reset }
          (next, vNo, err, u)

/-! ## Sec-WebSocket-Protocol values (src/parse_ws_proto.go) -/

/-- WSProtoT web-socket sub-protocol flag values. -/
abbrev WSProtoT := Nat

def WSProtoNone : WSProtoT := 0
def WSProtoSIPF : WSProtoT := 2
def WSProtoXMPPF : WSProtoT := 4
def WSProtoMSRPF : WSProtoT := 8
def WSProtoOtherF : WSProtoT := 16

/-- WSProtoResolve resolves a sub-protocol name to its numeric flag. -/
def WSProtoResolve (n : List Nat) : WSProtoT :=
  if n.length == 3 && cmpEq n (strBytes ("sip")) then WSProtoSIPF
  else if n.length == 4 then
    if cmpEq n (strBytes ("xmpp")) then WSProtoXMPPF
    else if cmpEq n (strBytes ("msrp")) then WSProtoMSRPF
    else WSProtoOtherF
  else WSProtoOtherF

/-- WSProtoVal contains a parsed Sec-WebSocket-Protocol value. -/
structure WSProtoVal where
  Val : PToken
  Proto : WSProtoT
  deriving DecidableEq, Repr

/-- Reset re-initializes the value. -/
def WSProtoVal.Reset (v : WSProtoVal) : WSProtoVal :=
  { Val := v.Val.Reset, Proto := WSProtoNone }

/-- The zero value of WSProtoVal. -/
def WSProtoVal.initial : WSProtoVal :=
  { Val := PToken.initial, Proto := WSProtoNone }

/-- PWSProto contains the parsed Sec-WebSocket-Protocol header values. -/
structure PWSProto where
  Vals : List WSProtoVal
  N : Nat
  HNo : Nat
  Protos : WSProtoT
  LastParsed : PField
  tmp : WSProtoVal
  first : WSProtoVal
  deriving DecidableEq, Repr

/-- The zero value of PWSProto. -/
def PWSProto.initial : PWSProto :=
  { Vals := [], N := 0, HNo := 0, Protos := WSProtoNone,
    LastParsed := PField.Reset, tmp := WSProtoVal.initial,
    first := WSProtoVal.initial }

/-- ParseAllWSProtoValues parses all values of one Sec-WebSocket-Protocol
header at offs and accumulates them into the PWSProto aggregate. -/
def ParseAllWSProtoValues (buf : Buf) (offs : Nat) (u0 : PWSProto) :
    Nat × Nat × ErrorHdr × PWSProto :=
  go (buf.len + 4) offs 0 { u0 with LastParsed := PField.Reset }
where
  go : Nat → Nat → Nat → PWSProto → Nat × Nat × ErrorHdr × PWSProto
    | 0, offs, vNo, u => (offs, vNo, .Bug, u)
    | fuel+1, offs, vNo, u =>
      let idx := u.N
      let useSlot := idx < u.Vals.length
      let pv := if useSlot then u.Vals.getD idx WSProtoVal.initial else u.tmp
      match ParseTokenLst buf offs pv.Val PTokCommaSepF with
      | (next, err, val') =>
        if err == .Ok || err == .MoreValues then
          let lastParsed :=
            if vNo == 0 then val'.V
            else u.LastParsed.Extend (val'.V.Offs + val'.V.Len)
          let pv : WSProtoVal := { Val := val', Proto := WSProtoResolve (val'.V.Get buf) }
          let u :=
            { u with
              LastParsed := lastParsed,
              Protos := u.Protos ||| pv.Proto, N := u.N + 1 }
          let u :=
            if useSlot then { u with Vals := u.Vals.set idx pv }
            else { u with tmp := pv }
          let u :=
            if u.N == 1 && u.Vals.length == 0 then { u with first := pv } else u
          let u := if !useSlot then { u with tmp := u.tmp.Reset } else u
          if err == .MoreValues then go fuel next (vNo+1) u
          else (next, vNo+1, err, u)
        else if err == .MoreBytes then
          let u :=
            if useSlot then { u with Vals := u.Vals.set idx { pv with Val := val' } }
            else { u with tmp := { pv with Val := val' } }
          (next, vNo, err, u)
        else
          let u :=
            if useSlot then
              { u with Vals := u.Vals.set idx ({ pv with Val := val' }.Reset) }
            else { u with tmp := { pv with Val := val' }.Reset }
          (next, vNo, err, u)

/-! ## Sec-WebSocket-Extensions values (src/unnamed/part_004) -/

/-- WSExtT web-socket extension flag values. -/
abbrev WSExtT := Nat

def WSExtNone : WSExtT := 0
def WSExtPMsgDeflateF : WSExtT := 2
def WSExtOtherF : WSExtT := 4

/-- WSExtResolve resolves an extension name to its numeric flag. -/
def WSExtResolve (n : List Nat) : WSExtT :=
  if n.length == 18 && cmpEq n (strBytes ("permessage-deflate")) then
    WSExtPMsgDeflateF
  else WSExtOtherF

/-- WSExtVal contains a parsed Sec-WebSocket-Extensions value. -/
structure WSExtVal where
  Val : PToken
  Ext : WSExtT
  deriving DecidableEq, Repr

/-- Reset re-initializes the value. -/
def WSExtVal.Reset (v : WSExtVal) : WSExtVal :=
  { Val := v.Val.Reset, Ext := WSExtNone }

/-- The zero value of WSExtVal. -/
def WSExtVal.initial : WSExtVal := { Val := PToken.initial, Ext := WSExtNone }

/-- PWSExt contains the parsed Sec-WebSocket-Extensions header values. -/
structure PWSExt where
  Vals : List WSExtVal
  N : Nat
  HNo : Nat
  Extensions : WSExtT
  LastParsed : PField
  tmp : WSExtVal
  first : WSExtVal
  deriving DecidableEq, Repr

/-- The zero value of PWSExt. -/
def PWSExt.initial : PWSExt :=
  { Vals := [], N := 0, HNo := 0, Extensions := WSExtNone,
    LastParsed := PField.Reset, tmp := WSExtVal.initial,
    first := WSExtVal.initial }

/-- ParseAllWSExtValues parses all values of one Sec-WebSocket-Extensions
header at offs and accumulates them into the PWSExt aggregate. -/
def ParseAllWSExtValues (buf : Buf) (offs : Nat) (u0 : PWSExt) :
    Nat × Nat × ErrorHdr × PWSExt :=
  go (buf.len + 4) offs 0 { u0 with LastParsed := PField.Reset }
where
  go : Nat → Nat → Nat → PWSExt → Nat × Nat × ErrorHdr × PWSExt
    | 0, offs, vNo, u => (offs, vNo, .Bug, u)
    | fuel+1, offs, vNo, u =>
      let idx := u.N
      let useSlot := idx < u.Vals.length
      let pv := if useSlot then u.Vals.getD idx WSExtVal.initial else u.tmp
      match ParseTokenLst buf offs pv.Val (PTokCommaSepF ||| PTokAllowParamsF) with
      | (next, err, val') =>
        if err == .Ok || err == .MoreValues then
          let lastParsed :=
            if vNo == 0 then val'.V
            else u.LastParsed.Extend (val'.V.Offs + val'.V.Len)
          let pv : WSExtVal := { Val := val', Ext := WSExtResolve (val'.V.Get buf) }
          let u :=
            { u with
              LastParsed := lastParsed,
              Extensions := u.Extensions ||| pv.Ext, N := u.N + 1 }
          let u :=
            if useSlot then { u with Vals := u.Vals.set idx pv }
            else { u with tmp := pv }
          let u :=
            if u.N == 1 && u.Vals.length == 0 then { u with first := pv } else u
          let u := if !useSlot then { u with tmp := u.tmp.Reset } else u
          if err == .MoreValues then go fuel next (vNo+1) u
          else (next, vNo+1, err, u)
        else if err == .MoreBytes then
          let u :=
            if useSlot then { u with Vals := u.Vals.set idx { pv with Val := val' } }
            else { u with tmp := { pv with Val := val' } }
          (next, vNo, err, u)
        else
          let u :=
            if useSlot then
              { u with Vals := u.Vals.set idx ({ pv with Val := val' }.Reset) }
            else { u with tmp := { pv with Val := val' }.Reset }
          (next, vNo, err, u)

example :
    (ParseAllTrEncValues (Buf.ofList (strBytes ("gzip, chunked\r\nX"))) 0
        PTrEnc.initial).2.2.2.Encodings = (TrEncGzipF ||| TrEncChunkedF) := by
  decide

example :
    (ParseAllTrEncValues (Buf.ofList (strBytes ("gzip, chunked\r\nX"))) 0
        PTrEnc.initial).2.2.2.Last.Enc = TrEncChunkedF := by decide

example : UpgProtoResolve (strBytes ("WebSocket")) = UProtoWSockF := by decide
example : WSProtoResolve (strBytes ("SIP")) = WSProtoSIPF := by decide
example : WSExtResolve (strBytes ("permessage-deflate")) = WSExtPMsgDeflateF := by
  decide


/-! ## Header line and header list parsing (src/unnamed/part_006) -/

/-- PHdrVals holds all the header specific parsed values structures
(implements the PHBodies interface; passed as `Option PHdrVals` where the Go
callers may pass nil). -/
structure PHdrVals where
  CLen : PUIntBody
  Upgrade : PUpgrade
  TrEnc : PTrEnc
  WSProto : PWSProto
  WSExt : PWSExt
  deriving DecidableEq, Repr

/-- The zero value of PHdrVals. -/
def PHdrVals.initial : PHdrVals :=
  { CLen := PUIntBody.initial, Upgrade := PUpgrade.initial,
    TrEnc := PTrEnc.initial, WSProto := PWSProto.initial,
    WSExt := PWSExt.initial }

/-- Internal states of the header-line parser. -/
def hInit : Nat := 0
def hName : Nat := 1
def hNameEnd : Nat := 2
def hBodyStart : Nat := 3
def hVal : Nat := 4
def hValEnd : Nat := 5
def hCLen : Nat := 6
def hUpgrade : Nat := 7
def hTrEncoding : Nat := 8
def hWSockProto : Nat := 9
def hWSockExt : Nat := 10
def hFIN : Nat := 11

/-- The `parseBody` helper closure of ParseHdrLine: dispatch to a
header-specific value parser when one exists (and `hb` is non-nil).  Returns
(new offset, error, updated header, updated values).  The `hb = nil` guard
mirrors the Go `if hb != nil`. -/
def hdrParseBody (buf : Buf) (o : Nat) (h0 : Hdr) (hb0 : Option PHdrVals) :
    Nat × ErrorHdr × Hdr × Option PHdrVals :=
  match hb0 with
  | none => (o, .Ok, h0, none)
  | some hv =>
    if h0.Typ == HdrCLen then
      if !hv.CLen.Parsed then
        let h := { h0 with state := hCLen }
        match ParseCLenVal buf o hv.CLen with
        | (n, err, clenb) =>
          let h := if err == .Ok then { h with Val := clenb.SVal } else h
          (n, err, h, some { hv with CLen := clenb })
      else (o, .Ok, h0, some hv)
    else if h0.Typ == HdrUpgrade then
      let hv :=
        if h0.state != hUpgrade then
          { hv with Upgrade := { hv.Upgrade with HNo := hv.Upgrade.HNo + 1 } }
        else hv
      let h := { h0 with state := hUpgrade }
      match ParseAllUpgradeValues buf o hv.Upgrade with
      | (n, _, err, upg) =>
        (n, err, { h with Val := upg.LastParsed }, some { hv with Upgrade := upg })
    else if h0.Typ == HdrTrEncoding then
      let hv :=
        if h0.state != hTrEncoding then
          { hv with TrEnc := { hv.TrEnc with HNo := hv.TrEnc.HNo + 1 } }
        else hv
      let h := { h0 with state := hTrEncoding }
      match ParseAllTrEncValues buf o hv.TrEnc with
      | (n, _, err, te) =>
        (n, err, { h with Val := te.LastParsed }, some { hv with TrEnc := te })
    else if h0.Typ == HdrWSockProto then
      let hv :=
        if h0.state != hWSockProto then
          { hv with WSProto := { hv.WSProto with HNo := hv.WSProto.HNo + 1 } }
        else hv
      let h := { h0 with state := hWSockProto }
      match ParseAllWSProtoValues buf o hv.WSProto with
      | (n, _, err, wp) =>
        (n, err, { h with Val := wp.LastParsed }, some { hv with WSProto := wp })
    else if h0.Typ == HdrWSockExt then
      let hv :=
        if h0.state != hWSockExt then
          { hv with WSExt := { hv.WSExt with HNo := hv.WSExt.HNo + 1 } }
        else hv
      let h := { h0 with state := hWSockExt }
      match ParseAllWSExtValues buf o hv.WSExt with
      | (n, _, err, we) =>
        (n, err, { h with Val := we.LastParsed }, some { hv with WSExt := we })
    else (o, .Ok, h0, some hv)

/-- ParseHdrLine parses one header line `Name SP* : LWS* val LWS* CRLF` of a
HTTP message, resumable; `Empty` is returned for the empty (CRLF) line that
ends the header block, with the offset past the CRLF.  The dispatched value
parsers keep their continuation states (`hCLen`, `hUpgrade`, ...) across
calls.  The `hb = nil` continue states return `Bug` where Go would
nil-dereference (unreachable: those states are only entered with `hb` set). -/
def ParseHdrLine (buf : Buf) (offs : Nat) (h0 : Hdr) (hb0 : Option PHdrVals) :
    Nat × ErrorHdr × Hdr × Option PHdrVals :=
  go (buf.len + 8) offs h0 hb0
where
  go : Nat → Nat → Hdr → Option PHdrVals → Nat × ErrorHdr × Hdr × Option PHdrVals
    | 0, i, h, hb => (i, .MoreBytes, h, hb)
    | fuel+1, i, h, hb =>
      if i < buf.len then
        if h.state == hInit then
          if buf.byte i == 13 then
            if buf.len - i < 2 then (i, .MoreBytes, h, hb)
            else
              let h := { h with state := hFIN }
              if buf.byte (i+1) == 10 then (i+2, .Empty, h, hb)
              else (i+1, .Empty, h, hb)
          else if buf.byte i == 10 then (i+1, .Empty, { h with state := hFIN }, hb)
          else go fuel i { h with state := hName, Name := PField.Set i i } hb
        else if h.state == hName then
          let i2 := skipTokenDelim buf i 58
          if i2 ≥ buf.len then (i2, .MoreBytes, h, hb)
          else if buf.byte i2 == 32 || buf.byte i2 == 9 then
            let h := { h with state := hNameEnd, Name := h.Name.Extend i2 }
            if h.Name.Empty then (i2, .BadChar, h, hb)
            else go fuel (i2+1) h hb
          else if buf.byte i2 == 58 then
            let h := { h with state := hBodyStart, Name := h.Name.Extend i2 }
            if h.Name.Empty then (i2, .BadChar, h, hb)
            else
              let h := { h with Typ := GetHdrType (h.Name.Get buf) }
              match hdrParseBody buf (i2+1) h hb with
              | (n, err, h, hb) =>
                if h.state != hBodyStart then
                  if err == .Ok then (n, .Ok, { h with state := hFIN }, hb)
                  else (n, err, h, hb)
                else go fuel (i2+1) h hb
          else (i2, .BadChar, h, hb)
        else if h.state == hNameEnd then
          let i2 := skipWS buf i
          if i2 ≥ buf.len then (i2, .MoreBytes, h, hb)
          else if buf.byte i2 == 58 then
            let h := { h with state := hBodyStart, Typ := GetHdrType (h.Name.Get buf) }
            match hdrParseBody buf (i2+1) h hb with
            | (n, err, h, hb) =>
              if h.state != hBodyStart then
                if err == .Ok then (n, .Ok, { h with state := hFIN }, hb)
                else (n, err, h, hb)
              else go fuel (i2+1) h hb
          else (i2, .BadChar, h, hb)
        else if h.state == hBodyStart then
          match skipLWS buf i 0 with
          | (n, _, .Ok) =>
            go fuel (n+1) { h with state := hVal, Val := PField.Set n n } hb
          | (n, crl, .EOH) => (n + crl, .Ok, { h with state := hFIN }, hb)
          | (n, _, .MoreBytes) => (n, .MoreBytes, h, hb)
          | (n, _, err) => (n, err, h, hb)
        else if h.state == hVal then
          let i2 := skipToken buf i
          if i2 ≥ buf.len then (i2, .MoreBytes, h, hb)
          else go fuel i2 { h with Val := h.Val.Extend i2, state := hValEnd } hb
        else if h.state == hValEnd then
          match skipLWS buf i 0 with
          | (n, _, .Ok) => go fuel (n+1) { h with state := hVal } hb
          | (n, crl, .EOH) => (n + crl, .Ok, { h with state := hFIN }, hb)
          | (n, _, .MoreBytes) => (n, .MoreBytes, h, hb)
          | (n, _, err) => (n, err, h, hb)
        else if h.state == hCLen then
          match hb with
          | some hv =>
            match ParseCLenVal buf i hv.CLen with
            | (n, err, clenb) =>
              let h :=
                if err == .Ok then { h with Val := clenb.SVal, state := hFIN }
                else h
              (n, err, h, some { hv with CLen := clenb })
          | none => (i, .Bug, h, hb)
        else if h.state == hUpgrade then
          match hb with
          | some hv =>
            match ParseAllUpgradeValues buf i hv.Upgrade with
            | (n, _, err, upg) =>
              let h :=
                if h.Val.Empty then { h with Val := upg.LastParsed }
                else if !upg.LastParsed.Empty then
                  { h with Val := h.Val.Extend upg.LastParsed.EndOffs }
                else h
              let h := if err == .Ok then { h with state := hFIN } else h
              (n, err, h, some { hv with Upgrade := upg })
          | none => (i, .Bug, h, hb)
        else if h.state == hTrEncoding then
          match hb with
          | some hv =>
            match ParseAllTrEncValues buf i hv.TrEnc with
            | (n, _, err, te) =>
              let h :=
                if h.Val.Empty then { h with Val := te.LastParsed }
                else if !te.LastParsed.Empty then
                  { h with Val := h.Val.Extend te.LastParsed.EndOffs }
                else h
              let h := if err == .Ok then { h with state := hFIN } else h
              (n, err, h, some { hv with TrEnc := te })
          | none => (i, .Bug, h, hb)
        else if h.state == hWSockProto then
          match hb with
          | some hv =>
            match ParseAllWSProtoValues buf i hv.WSProto with
            | (n, _, err, wp) =>
              let h :=
                if h.Val.Empty then { h with Val := wp.LastParsed }
                else if !wp.LastParsed.Empty then
                  { h with Val := h.Val.Extend wp.LastParsed.EndOffs }
                else h
              let h := if err == .Ok then { h with state := hFIN } else h
              (n, err, h, some { hv with WSProto := wp })
          | none => (i, .Bug, h, hb)
        else if h.state == hWSockExt then
          match hb with
          | some hv =>
            match ParseAllWSExtValues buf i hv.WSExt with
            | (n, _, err, we) =>
              let h :=
                if h.Val.Empty then { h with Val := we.LastParsed }
                else if !we.LastParsed.Empty then
                  { h with Val := h.Val.Extend we.LastParsed.EndOffs }
                else h
              let h := if err == .Ok then { h with state := hFIN } else h
              (n, err, h, some { hv with WSExt := we })
          | none => (i, .Bug, h, hb)
        else (i, .Bug, h, hb)
      else (i, .MoreBytes, h, hb)

/-- ParseHeaders parses all the headers till the end-of-header marker (the
empty line).  On success the returned offset is just past the terminating
CRLF; `Empty` is propagated when the empty line comes first (no headers). -/
def ParseHeaders (buf : Buf) (offs : Nat) (hl0 : HdrLst) (hb0 : Option PHdrVals) :
    Nat × ErrorHdr × HdrLst × Option PHdrVals :=
  go (buf.len + 4) offs hl0 hb0
where
  go : Nat → Nat → HdrLst → Option PHdrVals → Nat × ErrorHdr × HdrLst × Option PHdrVals
    | 0, i, hl, hb => (i, .MoreBytes, hl, hb)
    | fuel+1, i, hl, hb =>
      if i < buf.len then
        let usedScratch := !(hl.N < hl.Hdrs.length)
        match ParseHdrLine buf i hl.curSlot hb with
        | (n, err, h, hb) =>
          let hl := hl.putSlot h
          if err == .Ok then
            let hl := { hl with PFlags := hl.PFlags.SetF h.Typ }
            let hl := hl.SetHdr h
            let hl := if usedScratch then { hl with hdr := Hdr.initial } else hl
            go fuel n { hl with N := hl.N + 1 } hb
          else if err == .Empty then
            if hl.N > 0 then (n, .Ok, hl, hb) else (n, .Empty, hl, hb)
          else (n, err, hl, hb)
      else (i, .MoreBytes, hl, hb)

/-- Results of a header-line parse for the sanity checks below. -/
def hdrLineRes (s : String) (offs : Nat) :
    Nat × ErrorHdr × HdrT × List Nat × List Nat :=
  let buf := Buf.ofList (strBytes s)
  match ParseHdrLine buf offs Hdr.initial (some PHdrVals.initial) with
  | (n, err, h, _) => (n, err, h.Typ, h.Name.Get buf, h.Val.Get buf)

example : hdrLineRes ("Content-Length: 12345\r\n\r\n") 0 =
    (23, .Ok, HdrCLen, strBytes ("Content-Length"), strBytes ("12345")) := by
  decide
example : hdrLineRes ("Foo: generic header\r\n\r\n") 0 =
    (21, .Ok, HdrOther, strBytes ("Foo"), strBytes ("generic header")) := by
  decide
example : hdrLineRes ("Transfer-Encoding: gzip, chunked\r\n\r\n") 0 =
    (34, .Ok, HdrTrEncoding, strBytes ("Transfer-Encoding"),
      strBytes ("gzip, chunked")) := by decide
example : hdrLineRes ("Host: foo.bar\r\n\r\n") 0 =
    (15, .Ok, HdrHost, strBytes ("Host"), strBytes ("foo.bar")) := by decide
example : hdrLineRes ("\r\nX") 0 = (2, .Empty, HdrNone, [], []) := by decide

example :
    (match ParseHeaders (Buf.ofList (strBytes
        ("Upgrade: websocket\r\nOrigin: null\r\n\r\n"))) 0
        (HdrLst.mk0 (List.replicate 20 Hdr.initial))
        (some PHdrVals.initial) with
     | (n, err, hl, hv) =>
       (n, err, hl.N, hl.PFlags,
         (hv.getD PHdrVals.initial).Upgrade.Protos)) =
    (36, .Ok, 2, HdrUpgradeF ||| HdrOriginF, UProtoWSockF) := by decide


/-! ## HTTP methods (src/parse_method.go) -/

/-- HTTPMethod holds the numeric request method codes. -/
inductive HTTPMethod where
  | MUndef
  | MGet
  | MHead
  | MPost
  | MPut
  | MDelete
  | MConnect
  | MOptions
  | MTrace
  | MPatch
  | MOther
  deriving DecidableEq, Repr

export HTTPMethod (MUndef MGet MHead MPost MPut MDelete MConnect MOptions MTrace MPatch MOther)

/-- The method-name table in `init()` insertion order (`Method2Name[MGet..MPatch]`). -/
def mthName2Type : List (List Nat × HTTPMethod) :=
  [ (strBytes ("GET"), MGet)
  , (strBytes ("HEAD"), MHead)
  , (strBytes ("POST"), MPost)
  , (strBytes ("PUT"), MPut)
  , (strBytes ("DELETE"), MDelete)
  , (strBytes ("CONNECT"), MConnect)
  , (strBytes ("OPTIONS"), MOptions)
  , (strBytes ("TRACE"), MTrace)
  , (strBytes ("PATCH"), MPatch) ]

/-- Hash of a method name: `(ByteToLower(n[0]) & 7) | ((len(n) & 3) << 3)`
(`mthBitsFChar = 3`, `mthBitsLen = 2`).  Go reads `n[0]` (panic on empty);
modelled with `headD 0`, every caller passes a non-empty name. -/
def hashMthName (n : List Nat) : Nat :=
  (byteToLower (n.headD 0) &&& 7) ||| ((n.length &&& 3) <<< 3)

/-- The method lookup bucket for a hash index, as built by `init()`: the
entries of `mthName2Type` whose hash is the index, in table order. -/
def mthNameLookup (idx : Nat) : List (List Nat × HTTPMethod) :=
  mthName2Type.filter (fun e => hashMthName e.1 == idx)

/-- GetMethodNo converts an ASCII method name to the numeric method value.
Note that the bucket search uses `bytes.Equal` — an exact, case-sensitive
byte comparison (only the hash lowercases its one byte). -/
def GetMethodNo (n : List Nat) : HTTPMethod :=
  match (mthNameLookup (hashMthName n)).find? (fun e => n == e.1) with
  | some e => e.2
  | none => MOther

example : GetMethodNo (strBytes ("GET")) = MGet := by decide
example : GetMethodNo (strBytes ("CONNECT")) = MConnect := by decide
example : GetMethodNo (strBytes ("BREW")) = MOther := by decide

/-! ## First line parsing (src/unnamed/part_003, second file) -/

/-- Internal first-line parser states. -/
def flInit : Nat := 0
def flReqMethod : Nat := 1
def flReqURI : Nat := 2
def flReqVer : Nat := 3
def flRplStatus : Nat := 4
def flRplReason : Nat := 5
def flCRLF : Nat := 6
def flFIN : Nat := 7

/-- PFLine contains the parsed first line of a HTTP message (`Status` is a
uint16 in the source; the only values written are 0 and three-digit codes). -/
structure PFLine where
  Status : Nat
  MethodNo : HTTPMethod
  Method : PField
  URI : PField
  Version : PField
  StatusCode : PField
  Reason : PField
  state : Nat
  deriving DecidableEq, Repr

/-- The zero value of PFLine (after `Reset`). -/
def PFLine.initial : PFLine :=
  { Status := 0, MethodNo := MUndef, Method := PField.Reset,
    URI := PField.Reset, Version := PField.Reset, StatusCode := PField.Reset,
    Reason := PField.Reset, state := flInit }

/-- Request returns true if the parsed first line corresponds to a request. -/
def PFLine.Request (fl : PFLine) : Bool := fl.Status == 0

/-- Modelled from the spec: §4.6 — the `bytescase.Prefix(httpVerPref, buf[i:])`
check for the "HTTP/" version prefix at offset `i` (the bytescase package
compares ASCII case-insensitively; it matches only when all 5 prefix bytes are
available, and the match length then points after the '/'). -/
def httpVerPrefAt (buf : Buf) (i : Nat) : Bool :=
  decide (i + 5 ≤ buf.len) &&
  (byteToLower (buf.byte i) == 104) && (byteToLower (buf.byte (i+1)) == 116) &&
  (byteToLower (buf.byte (i+2)) == 116) && (byteToLower (buf.byte (i+3)) == 112) &&
  (buf.byte (i+4) == 47)

/-- Result of the reply version scan loop (`verloop`) inside ParseFLine. -/
inductive VerLoopRes where
  | badchar (l : Nat)
  | space (l : Nat)
  | offEnd
  | more
  deriving DecidableEq, Repr

/-- The `verloop` of ParseFLine: scan the version digits after "HTTP/",
tracking the major/minor spans only to decide the flow (they are locals the
source never saves).  Ends at a space (`space l`), at a bad byte
(`badchar l`), at the end of the buffer (`offEnd`), or inside the '.' branch
with the buffer exhausted (`more` = the source's `goto moreBytes`). -/
def flVerLoop (buf : Buf) : Nat → Nat → PField → PField → VerLoopRes
  | 0, _, _, _ => .offEnd
  | fuel+1, l, majorV, minorV =>
    if l < buf.len then
      let c := buf.byte l
      if c == 46 then
        if majorV.Empty then
          let majorV := majorV.Extend l
          if l + 1 ≥ buf.len then .more
          else flVerLoop buf fuel (l+1) majorV (PField.Set (l+1) (l+1))
        else .badchar l
      else if c == 32 then .space l
      else if 48 ≤ c ∧ c ≤ 57 then flVerLoop buf fuel (l+1) majorV minorV
      else .badchar l
    else .offEnd

/-- The reply reason-phrase step of ParseFLine (state `flRplReason`). -/
def flReasonStep (buf : Buf) (i : Nat) (pl : PFLine) :
    Option (Nat × ErrorHdr × PFLine) :=
  match skipLine buf i with
  | (i2, crl, .Ok) =>
    some (i2, .Ok, { pl with Reason := pl.Reason.Extend (i2 - crl), state := flFIN })
  | (i2, _, err) => some (i2, err, pl)

/-- The reply status-code step of ParseFLine.  The source reads `buf[i+3]`
(and `buf[i]`..`buf[i+2]`) without a bounds check; when `i+3 ≥ len(buf)` the Go
runtime panics with an index-out-of-range error, modelled as `none`. -/
def flStatusStep (buf : Buf) (i : Nat) (pl : PFLine) :
    Option (Nat × ErrorHdr × PFLine) :=
  if i + 3 ≥ buf.len then none
  else if !(buf.byte (i+3) == 32) ||
      !((48 ≤ buf.byte i ∧ buf.byte i ≤ 57) ∧
        (48 ≤ buf.byte (i+1) ∧ buf.byte (i+1) ≤ 57) ∧
        (48 ≤ buf.byte (i+2) ∧ buf.byte (i+2) ≤ 57)) then
    some (i, .BadChar, pl)
  else
    let pl :=
      { pl with
        StatusCode := PField.Set i (i+3),
        Status := (buf.byte i - 48) * 100 + (buf.byte (i+1) - 48) * 10 +
          (buf.byte (i+2) - 48) }
    flReasonStep buf (i+4)
      { pl with Reason := PField.Set (i+4) (i+4), state := flRplReason }

/-- The CRLF step of ParseFLine (state `flCRLF`). -/
def flCRLFStep (buf : Buf) (i : Nat) (pl : PFLine) :
    Option (Nat × ErrorHdr × PFLine) :=
  match skipCRLF buf i with
  | (e, _, .Ok) => some (e, .Ok, { pl with state := flFIN })
  | (e, _, err) => some (e, err, pl)

/-- The request version step of ParseFLine (state `flReqVer`). -/
def flReqVerStep (buf : Buf) (i : Nat) (pl : PFLine) :
    Option (Nat × ErrorHdr × PFLine) :=
  let i2 := skipToken buf i
  if i2 ≥ buf.len then some (i2, .MoreBytes, pl)
  else if !(buf.byte i2 == 13) && !(buf.byte i2 == 10) then
    some (i2, .BadChar, pl)
  else
    let pl := { pl with Version := pl.Version.Extend i2 }
    if pl.Version.Empty then some (i2, .BadChar, pl)
    else flCRLFStep buf i2 { pl with state := flCRLF }

/-- The request URI step of ParseFLine (state `flReqURI`). -/
def flReqURIStep (buf : Buf) (i : Nat) (pl : PFLine) :
    Option (Nat × ErrorHdr × PFLine) :=
  let i2 := skipToken buf i
  if i2 ≥ buf.len then some (i2, .MoreBytes, pl)
  else if !(buf.byte i2 == 32) then some (i2, .BadChar, pl)
  else
    let pl := { pl with URI := pl.URI.Extend i2 }
    if pl.URI.Empty then some (i2, .BadChar, pl)
    else
      flReqVerStep buf (i2+1)
        { pl with state := flReqVer, Version := PField.Set (i2+1) (i2+1) }

/-- The request method step of ParseFLine (state `flReqMethod`). -/
def flReqMethodStep (buf : Buf) (i : Nat) (pl : PFLine) :
    Option (Nat × ErrorHdr × PFLine) :=
  let i2 := skipToken buf i
  if i2 ≥ buf.len then some (i2, .MoreBytes, pl)
  else if !(buf.byte i2 == 32) then some (i2, .BadChar, pl)
  else
    let pl := { pl with Method := pl.Method.Extend i2 }
    if pl.Method.Empty then some (i2, .BadChar, pl)
    else
      let pl := { pl with MethodNo := GetMethodNo (pl.Method.Get buf) }
      flReqURIStep buf (i2+1)
        { pl with state := flReqURI, URI := PField.Set (i2+1) (i2+1) }

/-- ParseFLine parses the request/response line of a HTTP message, resumable
through the saved state.  The result is `none` exactly when the source would
panic with an out-of-bounds slice index (see `flStatusStep`); note also that
the `flRplStatus` state has no case in the source's switch, so resuming in it
falls to the `endOk` epilogue (the final else: state becomes `flFIN` and the
call returns success at the given offset). -/
def ParseFLine (buf : Buf) (offs : Nat) (pl0 : PFLine) :
    Option (Nat × ErrorHdr × PFLine) :=
  if pl0.state == flInit then
    if buf.len - offs < 15 then some (offs, .MoreBytes, pl0)
    else if httpVerPrefAt buf offs then
      let l0 := offs + 5
      match flVerLoop buf (buf.len + 1) l0 (PField.Set l0 l0) PField.Reset with
      | .badchar l => some (l, .BadChar, pl0)
      | .more => some (offs, .MoreBytes, pl0)
      | .offEnd =>
        some (offs, .MoreBytes,
          { pl0 with Version := PField.Set offs buf.len, state := flRplStatus })
      | .space l =>
        let pl := { pl0 with Version := PField.Set offs l, state := flRplStatus }
        if l + 1 ≥ buf.len then some (offs, .MoreBytes, pl)
        else flStatusStep buf (l+1) pl
    else
      flReqMethodStep buf offs
        { pl0 with state := flReqMethod, Method := PField.Set offs offs }
  else if pl0.state == flReqMethod then flReqMethodStep buf offs pl0
  else if pl0.state == flReqURI then flReqURIStep buf offs pl0
  else if pl0.state == flReqVer then flReqVerStep buf offs pl0
  else if pl0.state == flCRLF then flCRLFStep buf offs pl0
  else if pl0.state == flRplReason then flReasonStep buf offs pl0
  else some (offs, .Ok, { pl0 with state := flFIN })

/-- First-line parse results for the sanity checks below. -/
def flRes (s : String) : Option (Nat × ErrorHdr × HTTPMethod × Nat × List Nat) :=
  let buf := Buf.ofList (strBytes s)
  (ParseFLine buf 0 PFLine.initial).map
    (fun r => (r.1, r.2.1, r.2.2.MethodNo, r.2.2.Status, r.2.2.URI.Get buf))

example : flRes ("GET http://foo.bar/test.html HTTP/1.0\r\n") =
    some (39, .Ok, MGet, 0, strBytes ("http://foo.bar/test.html")) := by decide
example : flRes ("OPTIONS * HTTP/1.1\r\n") =
    some (20, .Ok, MOptions, 0, strBytes ("*")) := by decide
example : flRes ("HTTP/1.1 200 Ok\r\n") =
    some (17, .Ok, MUndef, 200, []) := by decide
example : flRes ("HTTP/2 505 HTTP Version not supported\r\n") =
    some (39, .Ok, MUndef, 505, []) := by decide
example :
    (ParseFLine (Buf.ofList (strBytes ("HTTP/1.1 200 OK\r\n"))) 0
        PFLine.initial).map (fun r => (r.2.2.Reason.Get (Buf.ofList (strBytes
        ("HTTP/1.1 200 OK\r\n"))))) = some (strBytes ("OK")) := by decide


/-! ## Chunk parsing (src/unnamed/part_003, first file) -/

/-- Chunk parser states. -/
def sCnkParse : Nat := 0
def sCnkPTrailer : Nat := 1

/-- ChunkVal contains a parsed chunk delimiter (`Size` is an int64). -/
structure ChunkVal where
  Val : PToken
  Size : Int
  TrailerHdrs : HdrLst
  state : Nat
  deriving DecidableEq, Repr

/-- The zero value of ChunkVal (its trailer header list has a nil slot
slice). -/
def ChunkVal.initial : ChunkVal :=
  { Val := PToken.initial, Size := 0, TrailerHdrs := HdrLst.mk0 [], state := 0 }

/-- Reset re-initializes the parsed chunk value. -/
def ChunkVal.Reset (v : ChunkVal) : ChunkVal :=
  { Val := v.Val.Reset, Size := 0, TrailerHdrs := v.TrailerHdrs.Reset, state := 0 }

/-- The trailer-parsing arm of ParseChunk (state `sCnkPTrailer`): parse the
trailer headers; an immediate empty line is a valid empty trailer, and on
success the returned offset backs up 2 bytes so the caller's uniform
`offset + size + 2` advance stays correct. -/
def chunkTrailerStep (buf : Buf) (offs : Nat) (chunk0 : ChunkVal) :
    Nat × Int × ErrorHdr × ChunkVal :=
  match ParseHeaders buf offs chunk0.TrailerHdrs none with
  | (next, err, th, _) =>
    let chunk := { chunk0 with TrailerHdrs := th }
    if err == .Empty then (next - 2, chunk.Size, .Ok, chunk)
    else if err == .Ok then (next - 2, chunk.Size, .Ok, chunk)
    else (next, chunk.Size, err, chunk)

/-- ParseChunk parses one chunk delimiter `hex-size[;ext] CRLF` (rfc 7230
section 4.1); on the final chunk (size 0) it parses the trailer headers.
Returns (next offset, chunk size, error, updated chunk). -/
def ParseChunk (buf : Buf) (offs : Nat) (chunk0 : ChunkVal) :
    Nat × Int × ErrorHdr × ChunkVal :=
  if chunk0.state == sCnkParse then
    match ParseTokenLst buf offs chunk0.Val PTokAllowParamsF with
    | (next, err, val') =>
      let chunk := { chunk0 with Val := val' }
      if err == .Ok then
        match hexToU (val'.V.Get buf) with
        | (sz, true) =>
          let chunk := { chunk with Size := Int.ofNat sz }
          if sz == 0 then
            chunkTrailerStep buf next { chunk with state := sCnkPTrailer }
          else (next, Int.ofNat sz, .Ok, chunk)
        | (_, false) => (offs, -1, .ValNotNumber, chunk)
      else if err == .MoreBytes then (next, -1, .MoreBytes, chunk)
      else (next, -1, err, chunk.Reset)
  else chunkTrailerStep buf offs chunk0

/-- Chunk parse results for the sanity checks below. -/
def chunkRes (str : String) (offs : Nat) : Nat × Int × ErrorHdr × Nat :=
  match ParseChunk (Buf.ofList (strBytes str)) offs ChunkVal.initial with
  | (n, sz, err, ck) => (n, sz, err, ck.TrailerHdrs.N)

example : chunkRes ("4\r\nWiki\r\n") 0 = (3, 4, .Ok, 0) := by decide
example : chunkRes ("000e\r\nin \r\n\r\nchunks.\r\n") 0 = (6, 14, .Ok, 0) := by
  decide
example : chunkRes ("0\r\n\r\n") 0 = (3, 0, .Ok, 0) := by decide
example : chunkRes ("0\r\nTest-Hdr: foo bar\r\n\r\n") 0 = (22, 0, .Ok, 1) := by
  decide
example : chunkRes ("XY\r\n\r\n") 0 = (0, -1, .ValNotNumber, 0) := by decide

/-! ## Message parsing (src/unnamed/part_002, second file) -/

/-- Message parsing states. -/
inductive MsgPState where
  | MsgInit
  | MsgFLine
  | MsgHeaders
  | MsgBodyInit
  | MsgNoBody
  | MsgBodyCLen
  | MsgBodyChunked
  | MsgBodyChunkedData
  | MsgBodyEOF
  | MsgErr
  | MsgNoCLen
  | MsgFIN
  deriving DecidableEq, Repr

export MsgPState (MsgInit MsgFLine MsgHeaders MsgBodyInit MsgNoBody MsgBodyCLen
  MsgBodyChunked MsgBodyChunkedData MsgBodyEOF MsgErr MsgNoCLen MsgFIN)

/-- Parsing flags for ParseMsg. -/
def MsgSkipBodyF : Nat := 1
def MsgNoMoreDataF : Nat := 2

/-- PMsgIState holds the internal message parsing state. -/
structure PMsgIState where
  state : MsgPState
  offs : Nat
  deriving DecidableEq, Repr

/-- Alias for the buffer type, needed because the PMsg field below shadows
the name `Buf` inside the structure declaration. -/
abbrev ByteBuf := Buf

/-- PMsg contains a fully or partially parsed HTTP message.  `Buf` is the
(truncated) data slice saved on completion and `RawMsg` records the bounds of
the raw-message sub-slice `Buf[msg.offs:o]`. -/
structure PMsg where
  FL : PFLine
  PV : PHdrVals
  HL : HdrLst
  Body : PField
  LastChunk : ChunkVal
  Buf : ByteBuf
  RawMsg : Nat × Nat
  ist : PMsgIState

/-- Init initializes a PMsg for a new message; a `none` parsed-header array
selects the private default 10-element array (`PMsg.hdrs`). -/
def PMsg.Init (msg : ByteBuf) (hdrs : Option (List Hdr)) : PMsg :=
  { FL := PFLine.initial, PV := PHdrVals.initial,
    HL := HdrLst.mk0 (hdrs.getD (List.replicate 10 Hdr.initial)),
    Body := PField.Reset, LastChunk := ChunkVal.initial,
    Buf := msg, RawMsg := (0, 0), ist := { state := MsgInit, offs := 0 } }

/-- Parsed returns true if the message is fully parsed. -/
def PMsg.Parsed (m : PMsg) : Bool := m.ist.state == MsgFIN

/-- ParsedHdrs returns true if the headers are fully parsed. -/
def PMsg.ParsedHdrs (m : PMsg) : Bool :=
  m.ist.state == MsgFIN || m.ist.state == MsgBodyCLen ||
  m.ist.state == MsgBodyChunked || m.ist.state == MsgBodyChunkedData ||
  m.ist.state == MsgBodyEOF || m.ist.state == MsgNoBody ||
  m.ist.state == MsgBodyInit

/-- Err returns true if parsing failed. -/
def PMsg.Err (m : PMsg) : Bool := m.ist.state == MsgErr

/-- Request returns true if the message is a HTTP request. -/
def PMsg.Request (m : PMsg) : Bool := m.FL.Request

/-- Method returns the numeric HTTP method (MUndef for replies). -/
def PMsg.Method (m : PMsg) : HTTPMethod :=
  if m.Request then m.FL.MethodNo else MUndef

/-- BodyType returns the way the body is delimited, given the previous
request method when the message is a reply (RFC 7230 section 3.3.3). -/
def PMsg.BodyType (m : PMsg) (prevMethod : HTTPMethod) : MsgPState :=
  if m.Request = false ∧
      ((99 < m.FL.Status ∧ m.FL.Status < 200) ∨ m.FL.Status = 204 ∨
        m.FL.Status = 304 ∨ prevMethod = MHead) then
    MsgNoBody
  else if m.Request = false ∧ prevMethod = MConnect ∧
      (200 ≤ m.FL.Status ∧ m.FL.Status ≤ 299) then
    MsgBodyEOF
  else if m.HL.PFlags &&& HdrTrEncodingF ≠ 0 then
    if m.PV.TrEnc.Encodings &&& TrEncChunkedF ≠ 0 ∧
        m.PV.TrEnc.Last.Enc = TrEncChunkedF then
      MsgBodyChunked
    else if m.Request = false then MsgBodyEOF
    else MsgBodyEOF
  else if m.HL.PFlags &&& HdrCLenF ≠ 0 then MsgBodyCLen
  else if m.Request = true then MsgNoBody
  else MsgBodyEOF

/-- The shared `end:` epilogue of SkipBody: record the buffer and raw-message
slices and finish. -/
def skipBodyEnd (buf : Buf) (o : Nat) (msg : PMsg) : Nat × ErrorHdr × PMsg :=
  (o, .Ok,
    { msg with
      Buf := buf.take o, RawMsg := (msg.ist.offs, o),
      ist := { msg.ist with state := MsgFIN } })

/-- SkipBody finds the type of the message body and skips over it (or
continues skipping); requires a message with the headers parsed. -/
def SkipBody (buf : Buf) (offs : Nat) (msg0 : PMsg) (flags : Nat) :
    Nat × ErrorHdr × PMsg :=
  go (buf.len + 8) offs msg0
where
  go : Nat → Nat → PMsg → Nat × ErrorHdr × PMsg
    | 0, o, msg => (o, .Bug, msg)
    | fuel+1, o, msg =>
      if msg.ist.state == MsgBodyInit then
        let msg := { msg with Body := PField.Set o o }
        let st := msg.BodyType MUndef
        let msg := { msg with ist := { msg.ist with state := st } }
        if st == MsgErr then (o, .NoCLen, msg)
        else if st == MsgBodyInit then (o, .Bug, msg)
        else go fuel o msg
      else if msg.ist.state == MsgNoBody then
        let msg := { msg with Body := PField.Set 0 0 }
        skipBodyEnd buf o { msg with Body := msg.Body.Extend o }
      else if msg.ist.state == MsgBodyCLen then
        if flags &&& MsgSkipBodyF != 0 then skipBodyEnd buf o msg
        else if msg.PV.CLen.Parsed then
          if o + msg.PV.CLen.UIVal > buf.len then
            let msg :=
              if !(msg.Body.OffsIn o) then { msg with Body := msg.Body.Extend o }
              else msg
            if flags &&& MsgNoMoreDataF != 0 then skipBodyEnd buf buf.len msg
            else (o, .MoreBytes, msg)
          else
            let o2 := o + msg.PV.CLen.UIVal
            skipBodyEnd buf o2 { msg with Body := msg.Body.Extend o2 }
        else (o, .Bug, msg)
      else if msg.ist.state == MsgBodyEOF then
        if flags &&& MsgNoMoreDataF != 0 then
          skipBodyEnd buf buf.len { msg with Body := msg.Body.Extend buf.len }
        else
          let msg :=
            if !(msg.Body.OffsIn o) then { msg with Body := msg.Body.Extend o }
            else msg
          (o, .MoreBytes, msg)
      else if msg.ist.state == MsgBodyChunked then
        if flags &&& MsgSkipBodyF != 0 then skipBodyEnd buf o msg
        else
          match ParseChunk buf o msg.LastChunk with
          | (o2, _, err, ck) =>
            let msg := { msg with LastChunk := ck }
            if err == .Ok then
              go fuel o2 { msg with ist := { msg.ist with state := MsgBodyChunkedData } }
            else (o2, err, msg)
      else if msg.ist.state == MsgBodyChunkedData then
        if flags &&& MsgSkipBodyF != 0 then skipBodyEnd buf o msg
        else
          let nxt := o + msg.LastChunk.Size.toNat + 2
          if nxt > buf.len then
            let msg :=
              if !(msg.Body.OffsIn o) then { msg with Body := msg.Body.Extend o }
              else msg
            if flags &&& MsgNoMoreDataF != 0 then skipBodyEnd buf buf.len msg
            else (o, .MoreBytes, msg)
          else if msg.LastChunk.Size == 0 then skipBodyEnd buf nxt msg
          else
            go fuel nxt
              { msg with
                LastChunk := msg.LastChunk.Reset, ist := { msg.ist with state := MsgBodyChunked } }
      else (o, .Bug, msg)

/-- The shared error epilogue of ParseMsg: terminal errors set the `MsgErr`
state; a `MoreBytes` with the `MsgNoMoreDataF` flag becomes `Trunc`. -/
def msgErrExit (o : Nat) (err : ErrorHdr) (msg : PMsg) (flags : Nat) :
    Option (Nat × ErrorHdr × PMsg) :=
  if err != .MoreBytes then
    some (o, err, { msg with ist := { msg.ist with state := MsgErr } })
  else if flags &&& MsgNoMoreDataF != 0 then some (o, .Trunc, msg)
  else some (o, err, msg)

/-- The `end:` epilogue of ParseMsg. -/
def msgEndExit (buf : Buf) (o : Nat) (msg : PMsg) :
    Option (Nat × ErrorHdr × PMsg) :=
  some (o, .Ok,
    { msg with
      Buf := buf.take o, RawMsg := (msg.ist.offs, o) })

/-- The body phase of ParseMsg (states MsgBodyCLen, MsgBodyEOF, MsgNoBody,
MsgBodyChunked, MsgBodyChunkedData). -/
def msgBodyPhase (buf : Buf) (o : Nat) (msg : PMsg) (flags : Nat) :
    Option (Nat × ErrorHdr × PMsg) :=
  match SkipBody buf o msg flags with
  | (o2, err, msg) =>
    if err != .Ok then msgErrExit o2 err msg flags
    else msgEndExit buf o2 msg

/-- The MsgBodyInit phase of ParseMsg (honours MsgSkipBodyF). -/
def msgBodyInitPhase (buf : Buf) (o : Nat) (msg : PMsg) (flags : Nat) :
    Option (Nat × ErrorHdr × PMsg) :=
  if flags &&& MsgSkipBodyF != 0 then
    msgEndExit buf o { msg with Body := PField.Set o o }
  else msgBodyPhase buf o msg flags

/-- The MsgHeaders phase of ParseMsg. -/
def msgHeadersPhase (buf : Buf) (o : Nat) (msg : PMsg) (flags : Nat) :
    Option (Nat × ErrorHdr × PMsg) :=
  match ParseHeaders buf o msg.HL (some msg.PV) with
  | (o2, err, hl, pv) =>
    let msg := { msg with HL := hl, PV := pv.getD msg.PV }
    if err != .Ok then msgErrExit o2 err msg flags
    else
      msgBodyInitPhase buf o2
        { msg with ist := { msg.ist with state := MsgBodyInit } } flags

/-- The MsgFLine phase of ParseMsg; `none` propagates the modelled
out-of-bounds panic of ParseFLine. -/
def msgFLinePhase (buf : Buf) (o : Nat) (msg : PMsg) (flags : Nat) :
    Option (Nat × ErrorHdr × PMsg) :=
  match ParseFLine buf o msg.FL with
  | none => none
  | some (o2, err, fl) =>
    let msg := { msg with FL := fl }
    if err != .Ok then msgErrExit o2 err msg flags
    else
      msgHeadersPhase buf o2
        { msg with ist := { msg.ist with state := MsgHeaders } } flags

/-- ParseMsg parses a HTTP 1.x message contained in buf starting at offs;
resumable via the saved state, with `(offset, error, updated message)`
results (`none` = the modelled ParseFLine panic). -/
def ParseMsg (buf : Buf) (offs : Nat) (msg0 : PMsg) (flags : Nat) :
    Option (Nat × ErrorHdr × PMsg) :=
  if msg0.ist.state == MsgInit then
    msgFLinePhase buf offs
      { msg0 with ist := { state := MsgFLine, offs := offs } } flags
  else if msg0.ist.state == MsgFLine then msgFLinePhase buf offs msg0 flags
  else if msg0.ist.state == MsgHeaders then msgHeadersPhase buf offs msg0 flags
  else if msg0.ist.state == MsgBodyInit then msgBodyInitPhase buf offs msg0 flags
  else if msg0.ist.state == MsgBodyCLen || msg0.ist.state == MsgBodyEOF ||
      msg0.ist.state == MsgNoBody || msg0.ist.state == MsgBodyChunked ||
      msg0.ist.state == MsgBodyChunkedData then
    msgBodyPhase buf offs msg0 flags
  else if msg0.ist.state == MsgFIN then some (offs, .Ok, msg0)
  else msgErrExit offs .Bug msg0 flags

/-- Summary of a message parse result, used by the sanity checks and the
concrete theorem statements below. -/
structure MsgSummary where
  offs : Nat
  err : ErrorHdr
  st : MsgPState
  method : HTTPMethod
  status : Nat
  nHdrs : Nat
  pflags : HdrFlags
  body : PField
  deriving DecidableEq, Repr

/-- Project a ParseMsg result to its summary. -/
def msgSummOf (r : Nat × ErrorHdr × PMsg) : MsgSummary :=
  { offs := r.1, err := r.2.1, st := r.2.2.ist.state,
    method := r.2.2.FL.MethodNo, status := r.2.2.FL.Status,
    nHdrs := r.2.2.HL.N, pflags := r.2.2.HL.PFlags, body := r.2.2.Body }

/-- Message parse results for the sanity checks below. -/
def msgRes (s : String) (flags : Nat) : Option MsgSummary :=
  let buf := Buf.ofList (strBytes s)
  (ParseMsg buf 0 (PMsg.Init buf none) flags).map msgSummOf

example : msgRes ("GET / HTTP/1.1\r\nHost: www.example.org\r\n\r\n") 0 =
    some { offs := 41, err := .Ok, st := MsgFIN, method := MGet, status := 0,
           nHdrs := 1, pflags := HdrHostF, body := { Offs := 0, Len := 41 } } := by
  decide

example :
    msgRes ("HTTP/1.1 200 OK\r\nContent-Length: 12\r\nConnection: close\r\n\r\nHello world!") 0 =
    some { offs := 70, err := .Ok, st := MsgFIN, method := MUndef, status := 200,
           nHdrs := 2, pflags := HdrCLenF ||| HdrConnectionF,
           body := { Offs := 58, Len := 12 } } := by decide

example :
    msgRes ("PUT /test1 HTTP/1.1\r\nHost: example.com\r\nTransfer-Encoding: plain, chunked\r\n\r\n4\r\nWiki\r\nE\r\nin \r\n\r\nchunks.\r\n0\r\n\r\n") 0 =
    some { offs := 110, err := .Ok, st := MsgFIN, method := MPut, status := 0,
           nHdrs := 2, pflags := HdrHostF ||| HdrTrEncodingF,
           body := { Offs := 77, Len := 0 } } := by decide

example :
    msgRes ("HTTP/1.1 200 OK\r\nServer: Foo\r\n\r\nHello world!") MsgNoMoreDataF =
    some { offs := 44, err := .Ok, st := MsgFIN, method := MUndef, status := 200,
           nHdrs := 1, pflags := HdrServerF, body := { Offs := 32, Len := 12 } } := by
  decide


/-! ## Claim theorems -/

/-- Buffer for the C10 failing input: a response first line whose version
string pushes the status past the minimal length checked in `flInit`;
`len = 15` passes the check but the status test reads `buf[17]`. -/
def flPanicBuf : Buf := Buf.ofList (strBytes ("HTTP/1.234567 8"))

/-- C10: claimed, ParseFLine performs only in-bounds accesses and returns
MoreBytes when the buffer ends inside the status code of a response line.
In fact on `"HTTP/1.234567 8"` (15 bytes, passing the `flInit` minimum-length
check) the source evaluates `buf[i+3]` with `i+3 = 17 ≥ len(buf) = 15`: a Go
index-out-of-range panic, modelled as a `none` result, where the function's
own documentation promises `ErrHdrMoreBytes`. -/
theorem ParseFLine_oob_read_on_long_version :
    flPanicBuf.len = 15 ∧ ParseFLine flPanicBuf 0 PFLine.initial = none := by
  decide

/-- First buffer of the C3 failing sequence: 15 bytes ending right after the
space that follows a long version string. -/
def flResumeBuf1 : Buf := Buf.ofList (strBytes ("HTTP/1.0000000 "))

/-- Second buffer of the C3 failing sequence: the same data extended with a
valid status, reason and line end. -/
def flResumeBuf2 : Buf := Buf.ofList (strBytes ("HTTP/1.0000000 200 OK\r\n"))

/-- The PFLine state saved by the first call of the C3 failing sequence. -/
def flResumePl1 : PFLine :=
  match ParseFLine flResumeBuf1 0 PFLine.initial with
  | some r => r.2.2
  | none => PFLine.initial

/-- C3: claimed, every successful ParseFLine leaves exactly one of (method
span non-empty, status non-zero) true.  The first call below returns
MoreBytes with the internal state `flRplStatus`; that state has no case in
the source's switch, so the documented resumption call falls through to the
`endOk` epilogue and returns success (error 0) at offset 0 with `Status = 0`
and an empty method span — neither side of the claimed invariant holds. -/
theorem ParseFLine_resume_loses_invariant :
    (ParseFLine flResumeBuf1 0 PFLine.initial).map
        (fun r => (r.1, r.2.1, r.2.2.state)) =
      some (0, .MoreBytes, flRplStatus) ∧
    (ParseFLine flResumeBuf2 0 flResumePl1).map
        (fun r => (r.1, r.2.1, r.2.2.Status, r.2.2.Method.Len, r.2.2.state)) =
      some (0, .Ok, 0, 0, flFIN) := by
  decide

/-- C5 counterexample: "get" equals "GET" under the case-insensitive
comparator, yet GetMethodNo (which compares with `bytes.Equal`) returns
MOther instead of MGet. -/
theorem GetMethodNo_case_insensitive_cex :
    cmpEq (strBytes ("get")) (strBytes ("GET")) = true ∧
    GetMethodNo (strBytes ("get")) = MOther ∧ MOther ≠ MGet := by decide

/-- The exact-match lookup chain used to state the amended claim C5. -/
def methodChainExact (n : List Nat) : HTTPMethod :=
  if n = strBytes ("GET") then MGet
  else if n = strBytes ("HEAD") then MHead
  else if n = strBytes ("POST") then MPost
  else if n = strBytes ("PUT") then MPut
  else if n = strBytes ("DELETE") then MDelete
  else if n = strBytes ("CONNECT") then MConnect
  else if n = strBytes ("OPTIONS") then MOptions
  else if n = strBytes ("TRACE") then MTrace
  else if n = strBytes ("PATCH") then MPatch
  else MOther

/-- C5 amended: method-name matching is case-sensitive — GetMethodNo returns
a method's code exactly for the byte-for-byte method name (upper case, as
registered) and MOther for every other non-empty byte string. -/
theorem GetMethodNo_exact_match (n : List Nat) (h : n ≠ []) :
    GetMethodNo n = methodChainExact n := by
  by_cases h1 : n = strBytes ("GET")
  · subst h1; decide
  · by_cases h2 : n = strBytes ("HEAD")
    · subst h2; decide
    · by_cases h3 : n = strBytes ("POST")
      · subst h3; decide
      · by_cases h4 : n = strBytes ("PUT")
        · subst h4; decide
        · by_cases h5 : n = strBytes ("DELETE")
          · subst h5; decide
          · by_cases h6 : n = strBytes ("CONNECT")
            · subst h6; decide
            · by_cases h7 : n = strBytes ("OPTIONS")
              · subst h7; decide
              · by_cases h8 : n = strBytes ("TRACE")
                · subst h8; decide
                · by_cases h9 : n = strBytes ("PATCH")
                  · subst h9; decide
                  · have hnone :
                        (mthNameLookup (hashMthName n)).find?
                          (fun e => n == e.1) = none := by
                      apply List.find?_eq_none.mpr
                      intro e he
                      have he2 : e ∈ mthName2Type := List.mem_of_mem_filter he
                      simp only [mthName2Type, List.mem_cons,
                        List.mem_singleton] at he2
                      rcases he2 with h' | h' | h' | h' | h' | h' | h' | h' |
                        h' | h'
                      all_goals first
                        | (subst h'
                           simp only [beq_eq_false_iff_ne, ne_eq]
                           simp_all [strBytes])
                        | simp_all
                    simp only [GetMethodNo, methodChainExact, hnone]
                    simp_all
  
/-- C5 witness: a concrete non-empty name routed through the amended
theorem. -/
theorem GetMethodNo_exact_match_witness :
    GetMethodNo (strBytes ("get")) = methodChainExact (strBytes ("get")) :=
  GetMethodNo_exact_match (strBytes ("get")) (by decide)

/-- C9: after a message has been fully parsed (state MsgFIN), a further
ParseMsg call returns the given offset with no error and the unchanged
message struct. -/
theorem ParseMsg_idempotent_after_parsed (buf : Buf) (offs : Nat) (msg : PMsg)
    (flags : Nat) (h : msg.ist.state = MsgFIN) :
    ParseMsg buf offs msg flags = some (offs, .Ok, msg) := by
  unfold ParseMsg
  simp [h]

/-- A concrete fully-parsed message for the C9 witness. -/
def finMsgEx : PMsg :=
  { PMsg.Init (Buf.ofList (strBytes ("x"))) none with
    ist := { state := MsgFIN, offs := 0 } }

/-- C9 witness: the idempotence theorem applied at a concrete parsed
message. -/
theorem ParseMsg_idempotent_after_parsed_witness :
    ParseMsg (Buf.ofList (strBytes ("x"))) 7 finMsgEx 0 = some (7, .Ok, finMsgEx) :=
  ParseMsg_idempotent_after_parsed (Buf.ofList (strBytes ("x"))) 7 finMsgEx 0 rfl


/-- Extending an empty just-set field to its own start offset leaves it
unchanged. -/
theorem PField_extend_set_self (o : Nat) :
    (PField.Set o o).Extend o = PField.Set o o := by
  simp [PField.Set, PField.Extend]

/-- An offset is never inside the empty field that starts at it. -/
theorem PField_offsIn_set_self (o : Nat) : (PField.Set o o).OffsIn o = false := by
  simp [PField.Set, PField.OffsIn, PField.EndOffs]

/-- Buffer for the C2 counterexample: a request whose Content-Length (5) is
larger than the 2 body bytes available (`len(buf) = 39`, body start 37). -/
def clenShortBuf : Buf :=
  Buf.ofList (strBytes ("GET a HTTP/1.1\r\nContent-Length: 5\r\n\r\nab"))

/-- C2 counterexample: claimed, with the NoMoreData flag and a buffer too
short for the Content-Length body the parser extends the body span to
`len(buf)` and returns Trunc.  In fact ParseMsg returns success (`Ok`, not
`Trunc`) at `len(buf) = 39`, and the body span stays empty at the body start
37 rather than being extended to 39. -/
theorem ParseMsg_clen_trunc_claim_cex :
    clenShortBuf.len = 39 ∧
    (ParseMsg clenShortBuf 0 (PMsg.Init clenShortBuf none) MsgNoMoreDataF).map
        msgSummOf =
      some { offs := 39, err := .Ok, st := MsgFIN, method := MGet, status := 0,
             nHdrs := 1, pflags := HdrCLenF, body := { Offs := 37, Len := 0 } } ∧
    ErrorHdr.Ok ≠ ErrorHdr.Trunc := by decide

/-- C2 amended: when the message is in the Content-Length body state with a
parsed length that exceeds the buffer and the caller passes NoMoreData (and
does not pass SkipBody), SkipBody accepts the truncated body: it returns
offset `len(buf)` with success (`Ok`, not `Trunc`), marks the message fully
parsed, and leaves the body span empty at the body start (the span is not
extended to `len(buf)`). -/
theorem SkipBody_clen_short_nomoredata (buf : Buf) (offs : Nat) (msg : PMsg)
    (flags : Nat)
    (hst : msg.ist.state = MsgBodyCLen)
    (hparsed : msg.PV.CLen.state = 1)
    (hshort : offs + msg.PV.CLen.UIVal > buf.len)
    (hnmd : flags &&& MsgNoMoreDataF ≠ 0)
    (hskip : flags &&& MsgSkipBodyF = 0)
    (hbody : msg.Body = PField.Set offs offs) :
    (SkipBody buf offs msg flags).1 = buf.len ∧
    (SkipBody buf offs msg flags).2.1 = .Ok ∧
    (SkipBody buf offs msg flags).2.2.ist.state = MsgFIN ∧
    (SkipBody buf offs msg flags).2.2.Body = PField.Set offs offs := by
  have hf : buf.len + 8 = (buf.len + 7) + 1 := rfl
  unfold SkipBody
  rw [hf]
  simp [SkipBody.go, hst, hskip, hnmd, PUIntBody.Parsed, hparsed, hshort,
    hbody, PField_offsIn_set_self, PField_extend_set_self, skipBodyEnd]

/-- A concrete message in the C2 amended theorem's situation, for the
witness. -/
def clenShortMsgEx : PMsg :=
  { PMsg.Init clenShortBuf none with
    PV := { PHdrVals.initial with
            CLen := { UIVal := 5, SVal := PField.Set 32 33, state := 1 } },
    Body := PField.Set 37 37,
    ist := { state := MsgBodyCLen, offs := 0 } }

/-- C2 witness: the amended theorem applied at the concrete truncated
message. -/
theorem SkipBody_clen_short_nomoredata_witness :
    (SkipBody clenShortBuf 37 clenShortMsgEx MsgNoMoreDataF).1 = clenShortBuf.len ∧
    (SkipBody clenShortBuf 37 clenShortMsgEx MsgNoMoreDataF).2.1 = .Ok ∧
    (SkipBody clenShortBuf 37 clenShortMsgEx MsgNoMoreDataF).2.2.ist.state = MsgFIN ∧
    (SkipBody clenShortBuf 37 clenShortMsgEx MsgNoMoreDataF).2.2.Body =
      PField.Set 37 37 :=
  SkipBody_clen_short_nomoredata clenShortBuf 37 clenShortMsgEx MsgNoMoreDataF
    rfl rfl (by decide) (by decide) (by decide) rfl

/-- The header part of the C4 counterexample message (41 bytes; the declared
Content-Length 70000 makes the whole message 70041 bytes long). -/
def bigMsgHdr : List Nat :=
  strBytes ("GET a HTTP/1.1\r\nContent-Length: 70000\r\n\r\n")

/-- The C4 counterexample buffer: the 41 header bytes followed by 70000
filler body bytes (ASCII 65). -/
def bigBuf : Buf := { len := 70041, byte := fun i => bigMsgHdr.getD i 65 }

/-- C4 counterexample: claimed, the parser rejects messages longer than
65535 bytes and stored spans are never reduced modulo 2^16.  In fact a
single ParseMsg call on this 70041-byte message ends with `Ok` and a body
span stored as (41, 4464): the true body length 70000 was wrapped to
70000 % 65536 = 4464 by the uint16 `PField` fields. -/
theorem ParseMsg_oversized_ok_cex :
    bigBuf.len = 70041 ∧ 65535 < bigBuf.len ∧
    (ParseMsg bigBuf 0 (PMsg.Init bigBuf none) 0).map msgSummOf =
      some { offs := 70041, err := .Ok, st := MsgFIN, method := MGet,
             status := 0, nHdrs := 1, pflags := HdrCLenF,
             body := { Offs := 41, Len := 4464 } } ∧
    (4464 : Nat) = 70000 % 65536 ∧ (4464 : Nat) ≠ 70000 := by decide

/-- C4 amended: the parser does not reject messages longer than 65535 bytes
— ParseMsg can end with `Ok` past offset 65535 — and `PField.Set` stores
offsets and lengths reduced modulo 2^16, so spans of such messages do not
record the true offsets. -/
theorem PField_offsets_wrap_mod_65536 :
    (∀ s e : Nat, (PField.Set s e).Offs = s % 65536 ∧
      (PField.Set s e).Len = (e - s) % 65536) ∧
    (ParseMsg bigBuf 0 (PMsg.Init bigBuf none) 0).map
        (fun r => (r.1, r.2.1, r.2.2.Body)) =
      some (70041, .Ok, { Offs := 41, Len := 4464 }) := by
  refine ⟨fun s e => ⟨rfl, rfl⟩, by decide⟩


/-- Case-insensitively equal byte strings have equal length. -/
theorem cmpEq_length {a b : List Nat} (h : cmpEq a b = true) :
    a.length = b.length := by
  have h2 : a.map byteToLower = b.map byteToLower := by
    unfold cmpEq at h
    exact eq_of_beq h
  have h3 := congrArg List.length h2
  simpa using h3

/-- C8: UpgProtoResolve maps, under the case-insensitive comparison,
"websocket" to the WebSocket flag, "h2c" and "http/2.0" to the HTTP2 flag,
and every other byte string to the Other flag (the source's length guards
are implied by case-insensitive equality). -/
theorem UpgProtoResolve_matches_table (n : List Nat) :
    UpgProtoResolve n =
      (if cmpEq n (strBytes ("websocket")) then UProtoWSockF
       else if cmpEq n (strBytes ("h2c")) || cmpEq n (strBytes ("http/2.0")) then
         UProtoHTTP2F
       else UProtoOtherF) := by
  unfold UpgProtoResolve
  by_cases h1 : cmpEq n (strBytes ("websocket")) = true
  · have hl : n.length = 9 := by simpa [strBytes] using cmpEq_length h1
    simp [h1, hl]
  · by_cases h2 : cmpEq n (strBytes ("h2c")) = true
    · have hl : n.length = 3 := by simpa [strBytes] using cmpEq_length h2
      simp [h1, h2, hl]
    · by_cases h3 : cmpEq n (strBytes ("http/2.0")) = true
      · have hl : n.length = 8 := by simpa [strBytes] using cmpEq_length h3
        simp [h1, h2, h3, hl]
      · simp [h1, h2, h3]

/-- The body-framing decision written from the words of claim C1 (spec §4.8
and RFC 7230 §3.3.3), used as the specification side of the comparison
below: no body for 1xx/204/304 responses and responses to HEAD; tunnel
(body-to-EOF) for 2xx responses to CONNECT; with Transfer-Encoding present,
chunked iff the final coding is chunked and EOF otherwise for both requests
and responses; else Content-Length; else no body for requests and EOF for
responses. -/
def bodyTypeSpec (m : PMsg) (prevMethod : HTTPMethod) : MsgPState :=
  if m.Request = false ∧
      ((100 ≤ m.FL.Status ∧ m.FL.Status ≤ 199) ∨ m.FL.Status = 204 ∨
        m.FL.Status = 304 ∨ prevMethod = MHead) then
    MsgNoBody
  else if m.Request = false ∧ prevMethod = MConnect ∧
      (200 ≤ m.FL.Status ∧ m.FL.Status ≤ 299) then
    MsgBodyEOF
  else if m.HL.PFlags &&& HdrTrEncodingF ≠ 0 then
    if m.PV.TrEnc.Last.Enc = TrEncChunkedF then MsgBodyChunked else MsgBodyEOF
  else if m.HL.PFlags &&& HdrCLenF ≠ 0 then MsgBodyCLen
  else if m.Request = true then MsgNoBody else MsgBodyEOF

/-- C1: on every message whose parsed Transfer-Encoding values satisfy the
accumulator invariant (the last value's flag is included in the cumulative
`Encodings` mask — which `ParseAllTrEncValues` maintains by construction,
`Encodings |= pv.Enc` before `Last = *pv`), BodyType agrees with the
case analysis claimed in the specification. -/
theorem BodyType_matches_spec (m : PMsg) (prev : HTTPMethod)
    (hinv : m.PV.TrEnc.Last.Enc = TrEncChunkedF →
      m.PV.TrEnc.Encodings &&& TrEncChunkedF ≠ 0) :
    m.BodyType prev = bodyTypeSpec m prev := by
  have hrng : (99 < m.FL.Status ∧ m.FL.Status < 200) ↔
      (100 ≤ m.FL.Status ∧ m.FL.Status ≤ 199) := by omega
  have hch : (m.PV.TrEnc.Encodings &&& TrEncChunkedF ≠ 0 ∧
      m.PV.TrEnc.Last.Enc = TrEncChunkedF) ↔
      m.PV.TrEnc.Last.Enc = TrEncChunkedF :=
    ⟨fun h => h.2, fun h => ⟨hinv h, h⟩⟩
  unfold PMsg.BodyType bodyTypeSpec
  simp only [hrng, hch, ite_self]

/-- A concrete chunked response for the C1 witness. -/
def bodyTypeMsgEx : PMsg :=
  { PMsg.Init (Buf.ofList []) none with
    FL := { PFLine.initial with Status := 200 },
    HL := { HdrLst.mk0 [] with PFlags := HdrTrEncodingF },
    PV := { PHdrVals.initial with
            TrEnc := { PTrEnc.initial with
                       Encodings := TrEncChunkedF,
                       Last := { Val := PToken.initial, Enc := TrEncChunkedF } } } }

/-- C1 witness: the BodyType agreement applied at a concrete chunked
response. -/
theorem BodyType_matches_spec_witness :
    bodyTypeMsgEx.BodyType MUndef = bodyTypeSpec bodyTypeMsgEx MUndef :=
  BodyType_matches_spec bodyTypeMsgEx MUndef (by decide)


/-- skipLWS at a CRLF whose following byte is not SP/HTAB reports the end of
the header block: result `(i, 2, EOH)`. -/
theorem skipLWS_crlf_eoh (buf : Buf) (i : Nat) (f : Nat)
    (h2 : i + 2 < buf.len)
    (hcr : buf.byte i = 13) (hlf : buf.byte (i+1) = 10)
    (hnw : isWSb (buf.byte (i+2)) = false) :
    skipLWS buf i f = (i, 2, .EOH) := by
  obtain ⟨k, hk⟩ : ∃ k, buf.len + 1 - i = k + 1 := ⟨buf.len - i, by omega⟩
  have hlt : i < buf.len := by omega
  have hlt1 : i + 1 < buf.len := by omega
  have hw : isWSb 13 = false := rfl
  unfold skipLWS
  rw [hk]
  simp [skipLWS.go, hlt, hlt1, h2, hcr, hlf, hnw, hw]

/-- ParseHdrLine called (in start state) at the empty line ending the header
block consumes the CRLF and returns `Empty`. -/
theorem parseHdrLine_at_empty_line (buf : Buf) (offs : Nat) (h : Hdr)
    (hb : Option PHdrVals)
    (hlen : offs + 1 < buf.len)
    (hcr : buf.byte offs = 13) (hlf : buf.byte (offs+1) = 10)
    (hst : h.state = hInit) :
    ParseHdrLine buf offs h hb =
      (offs + 2, .Empty, { h with state := hFIN }, hb) := by
  have hf : buf.len + 8 = (buf.len + 7) + 1 := rfl
  have hlt : offs < buf.len := by omega
  have h2 : ¬ (buf.len - offs < 2) := by omega
  unfold ParseHdrLine
  rw [hf]
  simp [ParseHdrLine.go, hlt, hst, hcr, hlf, h2]

/-- putSlot writes a header slot and leaves the collected-header count
unchanged. -/
theorem HdrLst.putSlot_N (hl : HdrLst) (h : Hdr) : (hl.putSlot h).N = hl.N := by
  unfold HdrLst.putSlot
  split <;> rfl

/-- ParseHeaders at an empty (CRLF) line stops there: it consumes the CRLF and
returns `Ok` if headers were already collected (`N > 0`) and `Empty`
otherwise. -/
theorem parseHeaders_at_empty_line (buf : Buf) (offs : Nat) (hl : HdrLst)
    (hb : Option PHdrVals)
    (hlen : offs + 1 < buf.len)
    (hcr : buf.byte offs = 13) (hlf : buf.byte (offs+1) = 10)
    (hst : hl.curSlot.state = hInit) :
    ParseHeaders buf offs hl hb =
      (offs + 2, if 0 < hl.N then ErrorHdr.Ok else ErrorHdr.Empty,
        hl.putSlot { hl.curSlot with state := hFIN }, hb) := by
  have hf : buf.len + 4 = (buf.len + 3) + 1 := rfl
  have hlt : offs < buf.len := by omega
  have e1 := parseHdrLine_at_empty_line buf offs hl.curSlot hb hlen hcr hlf hst
  unfold ParseHeaders
  rw [hf]
  by_cases hn : 0 < hl.N
  · simp [ParseHeaders.go, hlt, e1, HdrLst.putSlot_N, hn]
  · simp [ParseHeaders.go, hlt, e1, HdrLst.putSlot_N, hn]

/-- C7: at a terminating empty (CRLF) line reached with the current slot in
its start state, ParseHeaders returns the offset immediately past the CRLF,
with error Empty when no header line was parsed before it (N = 0) and
success (Ok) otherwise. -/
theorem ParseHeaders_terminating_empty_line (buf : Buf) (offs : Nat)
    (hl : HdrLst) (hb : Option PHdrVals)
    (hlen : offs + 1 < buf.len)
    (hcr : buf.byte offs = 13) (hlf : buf.byte (offs+1) = 10)
    (hst : hl.curSlot.state = hInit) :
    (ParseHeaders buf offs hl hb).1 = offs + 2 ∧
    (ParseHeaders buf offs hl hb).2.1 =
      (if 0 < hl.N then ErrorHdr.Ok else ErrorHdr.Empty) := by
  rw [parseHeaders_at_empty_line buf offs hl hb hlen hcr hlf hst]
  exact ⟨rfl, rfl⟩

/-- C7 witness: the empty-line behaviour applied at a concrete buffer, once
with no headers collected (`Empty`) and once after one header (`Ok`). -/
theorem ParseHeaders_terminating_empty_line_witness :
    ((ParseHeaders (Buf.ofList (strBytes ("\r\nX"))) 0 (HdrLst.mk0 []) none).1 = 2 ∧
      (ParseHeaders (Buf.ofList (strBytes ("\r\nX"))) 0 (HdrLst.mk0 []) none).2.1 =
        (if 0 < (HdrLst.mk0 []).N then ErrorHdr.Ok else ErrorHdr.Empty)) ∧
    ((ParseHeaders (Buf.ofList (strBytes ("\r\nX"))) 0
        { HdrLst.mk0 [] with N := 1 } none).1 = 2 ∧
      (ParseHeaders (Buf.ofList (strBytes ("\r\nX"))) 0
        { HdrLst.mk0 [] with N := 1 } none).2.1 =
        (if 0 < ({ HdrLst.mk0 [] with N := 1 } : HdrLst).N then ErrorHdr.Ok
          else ErrorHdr.Empty)) :=
  ⟨ParseHeaders_terminating_empty_line (Buf.ofList (strBytes ("\r\nX"))) 0
      (HdrLst.mk0 []) none (by decide) (by decide) (by decide) (by decide),
    ParseHeaders_terminating_empty_line (Buf.ofList (strBytes ("\r\nX"))) 0
      { HdrLst.mk0 [] with N := 1 } none (by decide) (by decide) (by decide)
      (by decide)⟩

/-- ParseTokenLst on the single-byte token `0` followed by CRLF and a
non-whitespace byte: it ends at the CRLF, consumes it (end of header) and
returns Ok with the token spanning the single byte. -/
theorem parseTokenLst_zero_crlf (buf : Buf) (offs : Nat)
    (hlen : offs + 5 ≤ buf.len) (hmod : offs + 1 < 65536)
    (h0 : buf.byte offs = 48) (h1 : buf.byte (offs+1) = 13)
    (h2 : buf.byte (offs+2) = 10) (h3 : buf.byte (offs+3) = 13) :
    ParseTokenLst buf offs PToken.initial PTokAllowParamsF =
      (offs + 3, .Ok,
        { PToken.initial with
          V := { Offs := offs, Len := 1 }, state := tokFIN }) := by
  have hlt : offs < buf.len := by omega
  have hlt1 : offs + 1 < buf.len := by omega
  have hA : skipLWS buf (offs+1) PTokAllowParamsF = (offs+1, 2, .EOH) := by
    apply skipLWS_crlf_eoh
    · omega
    · exact h1
    · rw [Nat.add_assoc]; exact h2
    · rw [Nat.add_assoc]; rw [show (1:Nat) + 2 = 3 from rfl, h3]; rfl
  have e4 : buf.len + 4 = buf.len + 3 + 1 := rfl
  have e3 : buf.len + 3 = buf.len + 2 + 1 := rfl
  have hOffs : offs % 65536 = offs := Nat.mod_eq_of_lt (by omega)
  have hOffs1 : (offs + 1) % 65536 = offs + 1 := Nat.mod_eq_of_lt hmod
  unfold ParseTokenLst
  rw [e4, e3]
  simp [ParseTokenLst.go, ParseTokenLst.eohB, ParseTokenLst.mbB, hlt, hlt1,
    h0, h1, hA, isWSb, tokAllowedChar, PToken.initial, PField.Set,
    PField.Extend, PField.Reset, tokInit, tokName, tokWS, tokFNxt, tokFParam,
    tokFIN, tokERR, hOffs, hOffs1]
  omega

/-- C6: ParseChunk on the final chunk (hex size `0`, CRLF) immediately
followed by the empty line of an empty trailer block returns success, size 0
and the offset of the trailer-ending CRLF minus 0 bytes of data: two bytes
before the end of the block, so the caller's uniform `offset + size + 2`
advance lands exactly past the chunked body. -/
theorem ParseChunk_final_chunk_empty_trailer (buf : Buf) (offs : Nat)
    (hlen : offs + 5 ≤ buf.len) (hmod : offs + 1 < 65536)
    (h0 : buf.byte offs = 48) (h1 : buf.byte (offs+1) = 13)
    (h2 : buf.byte (offs+2) = 10) (h3 : buf.byte (offs+3) = 13)
    (h4 : buf.byte (offs+4) = 10) :
    (ParseChunk buf offs ChunkVal.initial).1 = offs + 3 ∧
    (ParseChunk buf offs ChunkVal.initial).2.1 = 0 ∧
    (ParseChunk buf offs ChunkVal.initial).2.2.1 = ErrorHdr.Ok ∧
    (ParseChunk buf offs ChunkVal.initial).1 + 2 = offs + 5 := by
  have hB := parseTokenLst_zero_crlf buf offs hlen hmod h0 h1 h2 h3
  have hH : ParseHeaders buf (offs+3) (HdrLst.mk0 []) none =
      (offs + 5, ErrorHdr.Empty,
        (HdrLst.mk0 []).putSlot
          { (HdrLst.mk0 ([] : List Hdr)).curSlot with state := hFIN },
        none) := by
    rw [parseHeaders_at_empty_line buf (offs+3) (HdrLst.mk0 []) none (by omega)
      h3 (by rw [Nat.add_assoc]; exact h4) rfl]
    rfl
  unfold ParseChunk chunkTrailerStep
  simp [ChunkVal.initial, hB, hH, PField.Get, hexToU, hexToU.go, hexDigit, h0,
    sCnkParse, sCnkPTrailer]

/-- C6 witness: the final-chunk behaviour applied at the concrete buffer
`0 CRLF CRLF`. -/
theorem ParseChunk_final_chunk_empty_trailer_witness :
    (ParseChunk (Buf.ofList (strBytes ("0\r\n\r\n"))) 0 ChunkVal.initial).1 = 3 ∧
    (ParseChunk (Buf.ofList (strBytes ("0\r\n\r\n"))) 0 ChunkVal.initial).2.1 = 0 ∧
    (ParseChunk (Buf.ofList (strBytes ("0\r\n\r\n"))) 0
      ChunkVal.initial).2.2.1 = ErrorHdr.Ok ∧
    (ParseChunk (Buf.ofList (strBytes ("0\r\n\r\n"))) 0 ChunkVal.initial).1 + 2 =
      5 :=
  ParseChunk_final_chunk_empty_trailer (Buf.ofList (strBytes ("0\r\n\r\n"))) 0
    (by decide) (by decide) (by decide) (by decide) (by decide) (by decide)
    (by decide)


end Httpsp
